import Mathlib

/-!
Verification development for a Telegram shop bot (bot.py, razorpay_webhook.py,
config.py).  The entity store (MongoDB collections) is embedded as lists of
records; each handler of the source is translated into a pure state-passing
function.  Money fields (`balance_inr`, `price_usd`, `amount_usd`) are Python
floats in the source and are modelled as rationals; timestamps are modelled as
naturals.  `find_one` is modelled as `List.find?` (first match in collection
order) and `update_one` as `updateFirst` (rewrite the first match).
-/

namespace OttBot

/-- Python `int()` applied to a rational: truncation toward zero. -/
def truncToInt (q : ℚ) : Int :=
  if q < 0 then -⌊-q⌋ else ⌊q⌋

/-- config.USD_TO_INR_RATE (config.py line 88). -/
def USD_TO_INR_RATE : ℚ := 90

/-- Admin ids: the hardcoded owner (bot.py line 77) plus config.ADMIN_IDS. -/
def is_admin (uid : Nat) : Bool :=
  uid == 6670166083 || uid == 7677304116

/-- One discount rule, as stored by the admin_discount_rules flow. -/
structure DiscountRule where
  min_qty : Int
  percent : Int
deriving DecidableEq

/-- A document of the discounts collection. -/
structure DiscountDoc where
  product_id : Nat
  rules : List DiscountRule
deriving DecidableEq

/-- A document of the products collection (the fields the core reads). -/
structure Product where
  pid : Nat
  price_usd : ℚ
  enabled : Bool
deriving DecidableEq

/-- A document of the stocks collection. -/
structure StockItem where
  sid : Nat
  product_id : Nat
  email : String
  password : String
  status : String
  sold_to : Option Nat
  created_at : Nat
deriving DecidableEq

/-- A document of the orders collection. -/
structure Order where
  oid : Nat
  user_id : Nat
  product_id : Nat
  qty : Nat
  total_usd : ℚ
  delivered : List String
deriving DecidableEq

/-- A document of the payments collection.  Optional fields model document
fields that are present only for some providers. -/
structure Payment where
  pid : Nat
  user_id : Nat
  method : String
  amount_usd : Option ℚ
  amount_inr : Option Int
  status : String
  oxapay_track_id : Option String
  razorpay_payment_id : Option String
  auto : Bool
deriving DecidableEq

/-- The persisted flow state stored on the user document (`flow` field). -/
inductive Flow where
  | awaitAmount (method : String)
  | awaitProof (payment_id : Nat)
deriving DecidableEq

/-- A document of the users collection. The cart stores a product id and a
quantity (cb_qty). -/
structure UserDoc where
  uid : Nat
  balance_inr : ℚ
  banned : Bool
  flow : Option Flow
  cart : Option (Nat × Nat)
deriving DecidableEq

/-- The whole store: the MongoDB collections, the in-process RAZORPAY_STATE
map (user id to qr code id), and a counter supplying fresh ObjectIds. -/
structure DB where
  users : List UserDoc
  products : List Product
  stocks : List StockItem
  orders : List Order
  payments : List Payment
  discounts : List DiscountDoc
  rzpState : List (Nat × String)
  nextId : Nat
deriving DecidableEq

/-- Mongo `update_one`: rewrite the first element satisfying the filter. -/
def updateFirst (p : α → Bool) (f : α → α) : List α → List α
  | [] => []
  | a :: rest => if p a then f a :: rest else a :: updateFirst p f rest

/-- Association list update (for RAZORPAY_STATE). -/
def setAssoc (l : List (Nat × String)) (k : Nat) (v : String) : List (Nat × String) :=
  (k, v) :: l.filter (fun kv => kv.1 != k)

/-- Association list removal (RAZORPAY_STATE.pop). -/
def removeAssoc (l : List (Nat × String)) (k : Nat) : List (Nat × String) :=
  l.filter (fun kv => kv.1 != k)

/-- Association list lookup (RAZORPAY_STATE get). -/
def getAssoc (l : List (Nat × String)) (k : Nat) : Option String :=
  (l.find? (fun kv => kv.1 == k)).map (·.2)

def findUser (db : DB) (uid : Nat) : Option UserDoc :=
  db.users.find? (fun u => u.uid == uid)

def findPaymentByTrack (db : DB) (t : String) : Option Payment :=
  db.payments.find? (fun p => p.oxapay_track_id == some t)

/-- Replace the stored flow of one user (`users.update_one {"$set": {"flow": f}}`). -/
def setFlow (db : DB) (uid : Nat) (f : Option Flow) : DB :=
  { db with users := updateFirst (fun u => u.uid == uid) (fun u => { u with flow := f }) db.users }

/-- Replace the payments collection. -/
def withPayments (db : DB) (ps : List Payment) : DB :=
  { db with payments := ps }

/-- Mongo `users.update_one({"_id": uid}, {"$inc": {"balance_inr": amt}})`:
a no-op when the user document is absent (no upsert). -/
def incBalance (db : DB) (uid : Nat) (amt : ℚ) : DB :=
  { db with users := updateFirst (fun u => u.uid == uid) (fun u => { u with balance_inr := u.balance_inr + amt }) db.users }

/-- upsert_user, bot.py lines 744-782: inserts the user with balance 0,
banned false and no flow when absent; otherwise only refreshes profile
fields (balance, banned, flow, cart are untouched). -/
def upsert_user (db : DB) (uid : Nat) : DB :=
  if (findUser db uid).isSome then db
  else { db with users := db.users ++ [{ uid := uid, balance_inr := 0, banned := false, flow := none, cart := none }] }

/-- best_discount_percent, bot.py lines 999-1012: fold over the product
discount rules keeping the greatest percent whose min_qty is satisfied. -/
def best_discount_percent (db : DB) (product_id : Nat) (qty : Nat) : Int :=
  match db.discounts.find? (fun d => d.product_id == product_id) with
  | none => 0
  | some doc =>
      doc.rules.foldl
        (fun best r => if (qty : Int) ≥ r.min_qty then max best r.percent else best) 0

/-- The total computed by cb_confirm, bot.py lines 1521-1525:
subtotal minus subtotal times percent over one hundred. -/
def confirm_total (unit : ℚ) (d : Int) (qty : Nat) : ℚ :=
  unit * (qty : ℚ) - (unit * (qty : ℚ)) * ((d : ℚ) / 100)

/-- The stocks query of purchase_transaction, bot.py lines 1428-1431: all
available items of the product, in collection order (the query has no
sort). -/
def availStocks (db : DB) (pid : Nat) : List StockItem :=
  db.stocks.filter (fun s => s.product_id == pid && s.status == "available")

/-- purchase_transaction body, bot.py lines 1416-1469, with explicit state
threading: the returned DB in the error case is the store at the moment the
exception is raised (before the surrounding Mongo transaction aborts).  The
stock query has no sort: it takes the first `qty` available items in
collection order. -/
def purchase_body (db : DB) (user_id : Nat) (prod : Product) (qty : Nat) (total : ℚ) :
    DB × Except String (Nat × List String) :=
  match findUser db user_id with
  | none => (db, .error "Access denied")
  | some user =>
    if user.banned then (db, .error "Access denied")
    else if user.balance_inr < total then (db, .error "Insufficient wallet balance")
    else
      let stocks := (availStocks db prod.pid).take qty
      if stocks.length < qty then (db, .error "Not enough stock available")
      else
        let delivered := stocks.map
          (fun s => "Email: " ++ s.email ++ "\nPassword: " ++ s.password)
        let stockIds := stocks.map (fun s => s.sid)
        let soldStocks := db.stocks.map (fun s =>
          if stockIds.contains s.sid
          then { s with status := "sold", sold_to := some user_id } else s)
        let db1 := { db with stocks := soldStocks }
        let debitedUsers := updateFirst (fun u => u.uid == user_id)
          (fun u => { u with balance_inr := u.balance_inr - total }) db1.users
        let db2 := { db1 with users := debitedUsers }
        let orderId := db2.nextId
        let newOrder : Order :=
          { oid := orderId
            user_id := user_id
            product_id := prod.pid
            qty := qty
            total_usd := total
            delivered := delivered }
        let db3 := { db2 with orders := db2.orders ++ [newOrder], nextId := db2.nextId + 1 }
        (db3, .ok (orderId, delivered))

/-- purchase_transaction with Mongo transaction semantics: on an exception
the session aborts and no write is visible. -/
def purchase_transaction (db : DB) (user_id : Nat) (prod : Product) (qty : Nat) (total : ℚ) :
    DB × Except String (Nat × List String) :=
  match purchase_body db user_id prod qty total with
  | (_, .error e) => (db, .error e)
  | (db1, .ok v) => (db1, .ok v)

/-- cb_confirm, bot.py lines 1490-1531: re-read user, check ban and cart,
look up the enabled product, price the cart and run the purchase
transaction. -/
def cb_confirm (db : DB) (uid : Nat) (prodId : Nat) :
    DB × Except String (Nat × List String) :=
  let db := upsert_user db uid
  match findUser db uid with
  | none => (db, .error "Access denied")
  | some user =>
    if user.banned then (db, .error "Access denied")
    else
      match user.cart with
      | none => (db, .error "Cart expired. Open product again.")
      | some (cartPid, cartQty) =>
        if cartPid != prodId then (db, .error "Cart expired. Open product again.")
        else
          let qty := max 1 cartQty
          match db.products.find? (fun p => p.pid == prodId && p.enabled) with
          | none => (db, .error "Product not found")
          | some prod =>
            let unit := prod.price_usd
            let d := best_discount_percent db prod.pid qty
            let total := confirm_total unit d qty
            purchase_transaction db uid prod qty total

/-- An OxaPay webhook body: track_id (none when missing), status string, and
amount (none when not a number). -/
structure OxaEvent where
  track_id : Option String
  status : String
  amount : Option ℚ
deriving DecidableEq

/-- The JSON response of a webhook route. -/
structure WebhookResp where
  ok : Bool
  error : Option String
  msg : Option String
deriving DecidableEq

/-- oxapay_webhook, bot.py lines 125-208: validate the payload, look up the
payment by track id, enforce the oxapay method, skip already-approved
payments, then conditionally set status approved and credit the wallet only
when the conditional update modified a document. -/
def oxapay_webhook (db : DB) (ev : OxaEvent) : DB × WebhookResp :=
  match ev.track_id with
  | none => (db, { ok := false, error := some "missing track_id", msg := none })
  | some track =>
    match ev.amount with
    | none => (db, { ok := false, error := some "invalid amount", msg := none })
    | some _ =>
      if !(["paid", "confirming", "completed"].contains ev.status) then
        (db, { ok := false, error := some "invalid status", msg := none })
      else
        match findPaymentByTrack db track with
        | none => (db, { ok := false, error := some "payment not found", msg := none })
        | some payment =>
          if payment.method != "oxapay" then
            (db, { ok := false, error := some "invalid payment method", msg := none })
          else if payment.status == "approved" then
            (db, { ok := true, error := none, msg := some "already processed" })
          else
            let amount_usd := payment.amount_usd.getD 0
            let amount_inr : Int := truncToInt (amount_usd * USD_TO_INR_RATE)
            let condFilter := fun (p : Payment) =>
              p.oxapay_track_id == some track && p.status != "approved"
            let modified := (db.payments.find? condFilter).isSome
            let db1 := withPayments db
              (updateFirst condFilter (fun p => { p with status := "approved", auto := true }) db.payments)
            let db2 :=
              if modified then incBalance db1 payment.user_id (amount_inr : ℚ) else db1
            (db2, { ok := true, error := none, msg := none })

/-- cb_cancel_oxapay, bot.py lines 2382-2397: read the payment by track id
and, when its status reads pending, rewrite the first track match to
cancelled. -/
def cb_cancel_oxapay (db : DB) (track : String) : DB :=
  match findPaymentByTrack db track with
  | some payment =>
    if payment.status == "pending" then
      withPayments db
        (updateFirst (fun p => p.oxapay_track_id == some track) (fun p => { p with status := "cancelled" }) db.payments)
    else db
  | none => db

/-- The TTL step of handle_oxapay_expiry, bot.py lines 474-483: read the
payment by track id and, when its status reads pending, rewrite the first
track match to expired.  The status check is a separate read: the update
filter itself carries no status condition. -/
def oxapay_expire_ttl (db : DB) (track : String) : DB :=
  match findPaymentByTrack db track with
  | some payment =>
    if payment.status == "pending" then
      withPayments db
        (updateFirst (fun p => p.oxapay_track_id == some track) (fun p => { p with status := "expired" }) db.payments)
    else db
  | none => db

/-- A Razorpay payment entity as read from a webhook payload: provider
payment id, amount in paise, and the telegram user id from the notes. -/
structure RzpEntity where
  id : Option String
  amount : Nat
  notes_user : Option Nat
deriving DecidableEq

/-- A Razorpay webhook body: the event kind and the payment entity. -/
structure RzpEvent where
  event : String
  payment : RzpEntity
deriving DecidableEq

/-- Shared body of handle_payment_captured (razorpay_webhook.py lines 31-149)
and handle_qr_payment_success (lines 152-275): require a telegram user id,
skip the event when a payment document with the same razorpay_payment_id
already exists, otherwise insert an approved payment document and credit
amount // 100 to the wallet, then clear the RAZORPAY_STATE entry. -/
def handle_payment_captured (db : DB) (ev : RzpEvent) : DB :=
  let payment_id := ev.payment.id
  let amount_inr : Nat := ev.payment.amount / 100
  match ev.payment.notes_user with
  | none => db
  | some user_id =>
    match db.payments.find? (fun p => p.razorpay_payment_id == payment_id) with
    | some _ => db
    | none =>
      let doc : Payment :=
        { pid := db.nextId
          user_id := user_id
          method := "razorpay"
          amount_usd := some (amount_inr : ℚ)
          amount_inr := some (amount_inr : Int)
          status := "approved"
          oxapay_track_id := none
          razorpay_payment_id := payment_id
          auto := false }
      let db1 := { db with payments := db.payments ++ [doc], nextId := db.nextId + 1 }
      let db2 := incBalance db1 user_id (amount_inr : ℚ)
      { db2 with rzpState := removeAssoc db2.rzpState user_id }

/-- verify_webhook_signature, razorpay_webhook.py lines 16-28: trivially true
when no secret is configured, otherwise the hex digest of the payload under
the secret must equal the supplied signature.  The HMAC primitive is a
parameter. -/
def verify_webhook_signature (hmacF : String → String → String)
    (secret : Option String) (payload : String) (signature : String) : Bool :=
  match secret with
  | none => true
  | some s => hmacF s payload == signature

/-- The razorpay webhook route, bot.py lines 84-122: reject on bad signature
before touching any state, then dispatch payment.captured and
qr_code.credited to the captured handler; other events only log. -/
def razorpay_webhook (hmacF : String → String → String) (secret : Option String)
    (db : DB) (rawBody : String) (signature : String) (ev : RzpEvent) :
    DB × WebhookResp :=
  if !(verify_webhook_signature hmacF secret rawBody signature) then
    (db, { ok := false, error := some "Invalid signature", msg := none })
  else if ev.event == "payment.captured" then
    (handle_payment_captured db ev, { ok := true, error := none, msg := none })
  else if ev.event == "qr_code.credited" then
    (handle_payment_captured db ev, { ok := true, error := none, msg := none })
  else (db, { ok := true, error := none, msg := none })

/-- on_photo, bot.py lines 2280-2308: when the sender is not banned and the
flow is await_proof, set the referenced payment (matched by id and owner) to
pending and clear the flow. -/
def on_photo (db : DB) (uid : Nat) : DB :=
  let db := upsert_user db uid
  match findUser db uid with
  | none => db
  | some user =>
    if user.banned then db
    else
      match user.flow with
      | some (.awaitProof payId) =>
          let db1 := withPayments db
            (updateFirst (fun p => p.pid == payId && p.user_id == uid) (fun p => { p with status := "pending" }) db.payments)
          setFlow db1 uid none
      | _ => db

/-- The pending oxapay payment document stored by handle_oxapay_payment
(bot.py lines 260-272). -/
def oxaDoc (db : DB) (uid : Nat) (a : ℚ) (track : String) : Payment :=
  { pid := db.nextId
    user_id := uid
    method := "oxapay"
    amount_usd := some a
    amount_inr := none
    status := "pending"
    oxapay_track_id := some track
    razorpay_payment_id := none
    auto := false }

/-- The await_proof payment document stored by the generic funding flow
(bot.py lines 2002-2014). -/
def manualDoc (db : DB) (uid : Nat) (method : String) (n : Int) : Payment :=
  { pid := db.nextId
    user_id := uid
    method := method
    amount_usd := none
    amount_inr := some n
    status := "await_proof"
    oxapay_track_id := none
    razorpay_payment_id := none
    auto := false }

/-- The await_amount branch of on_text, bot.py lines 1954-2026, together with
handle_razorpay_payment (507-627) and handle_oxapay_payment (210-302).
`amt` is the parsed amount (none when parsing failed).  Razorpay: no payment
document is stored, only a RAZORPAY_STATE entry; OxaPay: a pending payment
carrying the track id is inserted; any other method: an await_proof payment
is inserted and the flow advances to await_proof. -/
def on_text_amount (db : DB) (uid : Nat) (amt : Option ℚ) (track : String) (qrId : String) : DB :=
  let db := upsert_user db uid
  match findUser db uid with
  | none => db
  | some user =>
    if user.banned then db
    else
      match user.flow with
      | some (.awaitAmount method) =>
        if method == "razorpay" then
          match amt with
          | none => db
          | some a =>
            if a < 1 then db
            else
              let db1 := setFlow db uid none
              { db1 with rzpState := setAssoc db1.rzpState uid qrId }
        else if method == "oxapay" then
          match amt with
          | none => db
          | some a =>
            if a < 1/10 then db
            else
              let db1 := setFlow db uid none
              { db1 with payments := db1.payments ++ [oxaDoc db1 uid a track], nextId := db1.nextId + 1 }
        else
          match amt with
          | none => db
          | some a =>
            if a ≤ 0 then db
            else
              let payId := db.nextId
              let db1 := { db with
                payments := db.payments ++ [manualDoc db uid method (truncToInt a)],
                nextId := db.nextId + 1 }
              setFlow db1 uid (some (.awaitProof payId))
      | _ => db

/-- cb_pay_amount, bot.py lines 1882-1897: for a configured method, store an
await_amount flow for the user. -/
def cb_pay_amount (db : DB) (uid : Nat) (method : String) : DB :=
  let db := upsert_user db uid
  if ["razorpay", "oxapay", "binance", "upi"].contains method then
    setFlow db uid (some (.awaitAmount method))
  else db

/-- cb_admin_pay approve and reject branches, bot.py lines 2792-2850: read
the payment by id; only when its status reads pending, either set it
approved and credit amount_usd to the owner wallet, or set it rejected. -/
def cb_admin_pay (db : DB) (adminId : Nat) (payId : Nat) (approve : Bool) : DB :=
  let db := upsert_user db adminId
  if !(is_admin adminId) then db
  else
    match db.payments.find? (fun p => p.pid == payId) with
    | none => db
    | some p =>
      if p.status != "pending" then db
      else if approve then
        let db1 := withPayments db
          (updateFirst (fun q => q.pid == payId) (fun q => { q with status := "approved" }) db.payments)
        incBalance db1 p.user_id (p.amount_usd.getD 0)
      else
        withPayments db
          (updateFirst (fun q => q.pid == payId) (fun q => { q with status := "rejected" }) db.payments)

/-- The admin_user_balance branch of on_text, bot.py lines 2098-2111:
money_int requires a positive amount and truncates it to an integer; the
delta (positive for addbal, negative otherwise) is applied to the target
balance unconditionally, then the admin flow is cleared. -/
def admin_adjust_balance (db : DB) (adminId : Nat) (target : Nat) (add : Bool)
    (amt : Option ℚ) : DB :=
  let db := upsert_user db adminId
  if !(is_admin adminId) then db
  else
    match amt with
    | none => db
    | some a =>
      if a ≤ 0 then db
      else
        let n : Int := truncToInt a
        let delta : Int := if add then n else -n
        let db1 := incBalance db target (delta : ℚ)
        setFlow db1 adminId none

/-- cb_qty, bot.py lines 1341-1352: store the cart with the quantity clamped
to at least one. -/
def cb_qty (db : DB) (uid : Nat) (prodId : Nat) (qty : Nat) : DB :=
  let db := upsert_user db uid
  let newUsers := updateFirst (fun u => u.uid == uid)
    (fun u => { u with cart := some (prodId, max 1 qty) }) db.users
  { db with users := newUsers }

/-- cb_cancel_razorpay, bot.py lines 2345-2358: drop the RAZORPAY_STATE
entry when its qr id matches; the payments collection is never written. -/
def cb_cancel_razorpay (db : DB) (uid : Nat) (qrId : String) : DB :=
  match getAssoc db.rzpState uid with
  | some q => if q == qrId then { db with rzpState := removeAssoc db.rzpState uid } else db
  | none => db

/-- The TTL step of handle_razorpay_expiry, bot.py lines 388-396: drop the
RAZORPAY_STATE entry; the payments collection is never written. -/
def razorpay_expire (db : DB) (uid : Nat) : DB :=
  { db with rzpState := removeAssoc db.rzpState uid }

/-- The await_stock_password branch of on_text, bot.py lines 2136-2152:
insert one available stock item. -/
def add_stock (db : DB) (productId : Nat) (email password : String) (createdAt : Nat) : DB :=
  let doc : StockItem :=
    { sid := db.nextId
      product_id := productId
      email := email
      password := password
      status := "available"
      sold_to := none
      created_at := createdAt }
  { db with stocks := db.stocks ++ [doc], nextId := db.nextId + 1 }

/-- The admin_discount_rules branch of on_text, bot.py lines 2043-2067:
each parsed rule clamps min_qty to at least 1 and percent into [0, 100];
the rules document for the product is replaced (upsert). -/
def set_discount_rules (db : DB) (productId : Nat) (rawRules : List (Int × Int)) : DB :=
  let rules := rawRules.map (fun r =>
    { min_qty := max 1 r.1, percent := max 0 (min 100 r.2) : DiscountRule })
  if (db.discounts.find? (fun d => d.product_id == productId)).isSome then
    let newDiscounts := updateFirst (fun d => d.product_id == productId)
      (fun d => { d with rules := rules }) db.discounts
    { db with discounts := newDiscounts }
  else
    { db with discounts := db.discounts ++ [{ product_id := productId, rules := rules }] }

/-- Product insertion by the admin panel (bot.py lines 2255-2272). -/
def add_product (db : DB) (price_usd : ℚ) : DB :=
  let doc : Product := { pid := db.nextId, price_usd := price_usd, enabled := true }
  { db with products := db.products ++ [doc], nextId := db.nextId + 1 }

/-- One inbound entry point of the system: a user action, a provider
webhook delivery, or a timer step. -/
inductive Op where
  | upsert (uid : Nat)
  | payAmount (uid : Nat) (method : String)
  | textAmount (uid : Nat) (amt : Option ℚ) (track : String) (qrId : String)
  | photo (uid : Nat)
  | oxaWebhook (ev : OxaEvent)
  | rzpWebhook (rawBody signature : String) (ev : RzpEvent)
  | adminPay (adminId : Nat) (payId : Nat) (approve : Bool)
  | cancelOxa (track : String)
  | oxaExpire (track : String)
  | cancelRzp (uid : Nat) (qrId : String)
  | rzpExpire (uid : Nat)
  | setQty (uid : Nat) (prodId : Nat) (qty : Nat)
  | confirm (uid : Nat) (prodId : Nat)
  | adminAdjust (adminId : Nat) (target : Nat) (add : Bool) (amt : Option ℚ)
  | addStock (productId : Nat) (email password : String) (createdAt : Nat)
  | setDiscount (productId : Nat) (rawRules : List (Int × Int))
  | addProduct (price_usd : ℚ)

/-- The secret configured in config.py line 71 (non-empty, so signature
verification is enforced). -/
def RAZORPAY_WEBHOOK_SECRET : Option String := some "change-me"

/-- Apply one operation to the store.  `hmacF` is the HMAC-SHA256 primitive
used by signature verification. -/
def step (hmacF : String → String → String) (db : DB) (op : Op) : DB :=
  match op with
  | .upsert uid => upsert_user db uid
  | .payAmount uid method => cb_pay_amount db uid method
  | .textAmount uid amt track qrId => on_text_amount db uid amt track qrId
  | .photo uid => on_photo db uid
  | .oxaWebhook ev => (oxapay_webhook db ev).1
  | .rzpWebhook raw sig ev => (razorpay_webhook hmacF RAZORPAY_WEBHOOK_SECRET db raw sig ev).1
  | .adminPay adminId payId approve => cb_admin_pay db adminId payId approve
  | .cancelOxa track => cb_cancel_oxapay db track
  | .oxaExpire track => oxapay_expire_ttl db track
  | .cancelRzp uid qrId => cb_cancel_razorpay db uid qrId
  | .rzpExpire uid => razorpay_expire db uid
  | .setQty uid prodId qty => cb_qty db uid prodId qty
  | .confirm uid prodId => (cb_confirm db uid prodId).1
  | .adminAdjust adminId target add amt => admin_adjust_balance db adminId target add amt
  | .addStock productId email password createdAt => add_stock db productId email password createdAt
  | .setDiscount productId rawRules => set_discount_rules db productId rawRules
  | .addProduct price_usd => add_product db price_usd

/-- The empty initial store. -/
def initDB : DB :=
  { users := [], products := [], stocks := [], orders := [], payments := []
    discounts := [], rzpState := [], nextId := 0 }

/-- Run a sequence of operations from the initial store. -/
def run (hmacF : String → String → String) (ops : List Op) : DB :=
  ops.foldl (step hmacF) initDB

/-- Insert a stock item into a list sorted by created_at ascending. -/
def insertByCreated (s : StockItem) : List StockItem → List StockItem
  | [] => [s]
  | a :: t => if s.created_at ≤ a.created_at then s :: a :: t else a :: insertByCreated s t

/-- Sort stock items by created_at ascending (insertion sort). -/
def sortByCreated : List StockItem → List StockItem
  | [] => []
  | a :: t => insertByCreated a (sortByCreated t)

/-- The selection claim C4 describes: the available items of the product
ordered by creation time ascending, first `qty`, as ids.  This follows the
wording of the specification; the source query has no such sort. -/
def fifoSelectedIds (db : DB) (pid qty : Nat) : List Nat :=
  ((sortByCreated (availStocks db pid)).take qty).map (fun s => s.sid)

/-- Ids of the stock items currently marked sold. -/
def soldIds (db : DB) : List Nat :=
  (db.stocks.filter (fun s => s.status == "sold")).map (fun s => s.sid)

/-- One OxaPay webhook delivery as a state transformer. -/
def oxaApply (ev : OxaEvent) (db : DB) : DB :=
  (oxapay_webhook db ev).1

/-- One Razorpay payment.captured delivery as a state transformer. -/
def rzpApply (ev : RzpEvent) (db : DB) : DB :=
  handle_payment_captured db ev

/-! ### Store invariants -/

/-- Every payment document stores nonnegative amounts. -/
def PayNonneg (db : DB) : Prop :=
  ∀ p ∈ db.payments, 0 ≤ p.amount_usd.getD 0

/-- Every payment document whose method is razorpay has status approved. -/
def RzpApproved (db : DB) : Prop :=
  ∀ p ∈ db.payments, p.method = "razorpay" → p.status = "approved"

/-- Only oxapay payment documents carry an oxapay track id. -/
def TrackOxa (db : DB) : Prop :=
  ∀ p ∈ db.payments, p.oxapay_track_id.isSome → p.method = "oxapay"

/-- The per-user content of the FlowProof invariant: an await_proof flow
points below the id counter and at payment documents of this user that
still have status await_proof and no track id. -/
def FlowP (db : DB) (x : UserDoc) : Prop :=
  ∀ payId, x.flow = some (Flow.awaitProof payId) →
    payId < db.nextId ∧
    ∀ p ∈ db.payments, p.pid = payId →
      p.user_id = x.uid ∧ p.status = "await_proof" ∧ p.oxapay_track_id = none

/-- An await_proof flow always points below the id counter and at payment
documents of its own user that still have status await_proof and no track
id. -/
def FlowProof (db : DB) : Prop :=
  ∀ u ∈ db.users, FlowP db u

/-- Payment ids are below the id counter. -/
def FreshIds (db : DB) : Prop :=
  ∀ p ∈ db.payments, p.pid < db.nextId

/-- Payment ids are pairwise distinct. -/
def PidsNodup (db : DB) : Prop :=
  (db.payments.map (fun p => p.pid)).Nodup

/-- User ids are pairwise distinct. -/
def UidsNodup (db : DB) : Prop :=
  (db.users.map (fun u => u.uid)).Nodup

/-- The inductive store invariant. -/
def Inv (db : DB) : Prop :=
  PayNonneg db ∧ RzpApproved db ∧ TrackOxa db ∧ FlowProof db ∧ FreshIds db
    ∧ PidsNodup db ∧ UidsNodup db

/-- Every user balance is nonnegative. -/
def BalNonneg (db : DB) : Prop :=
  ∀ u ∈ db.users, 0 ≤ u.balance_inr

/-- Operations that are not an admin balance deduction. -/
def NoDeduct : Op → Prop
  | .adminAdjust _ _ add _ => add = true
  | _ => True

/-- At most one payment document carries the given oxapay track id. -/
def uniqueTrack (db : DB) (t : String) : Prop :=
  db.payments.countP (fun p => p.oxapay_track_id == some t) ≤ 1

/-! ### Interleaving machines

The webhook handlers and the expiry handler suspend at every store call
(`await`).  To study races, each handler is split at its store calls into a
small task machine; a schedule interleaves the steps of two tasks. -/

/-- Program counter of an OxaPay webhook delivery task: before the dedup
read (bot.py lines 133-165), before the conditional update (line 173),
before the wallet credit (line 180), finished. -/
inductive OxaPC where
  | start
  | validated
  | updated
  | done
deriving DecidableEq

/-- An in-flight OxaPay webhook delivery: its payload, the payment document
read at the dedup lookup, the modified-count of its conditional update and
whether it credited the wallet. -/
structure OxaTask where
  pc : OxaPC
  ev : OxaEvent
  payment : Option Payment
  modified : Bool
  credited : Bool
deriving DecidableEq

/-- One store call of an OxaPay webhook delivery (oxapay_webhook split at
its awaits). -/
def oxaTaskStep (db : DB) (t : OxaTask) : DB × OxaTask :=
  match t.pc with
  | .start =>
    (match t.ev.track_id with
     | none => (db, { t with pc := .done })
     | some track =>
       match t.ev.amount with
       | none => (db, { t with pc := .done })
       | some _ =>
         if !(["paid", "confirming", "completed"].contains t.ev.status) then
           (db, { t with pc := .done })
         else
           match findPaymentByTrack db track with
           | none => (db, { t with pc := .done })
           | some payment =>
             if payment.method != "oxapay" then (db, { t with pc := .done })
             else if payment.status == "approved" then (db, { t with pc := .done })
             else (db, { t with pc := .validated, payment := some payment }))
  | .validated =>
    (match t.ev.track_id with
     | none => (db, { t with pc := .done })
     | some track =>
       let condFilter := fun (p : Payment) =>
         p.oxapay_track_id == some track && p.status != "approved"
       let modified := (db.payments.find? condFilter).isSome
       (withPayments db
         (updateFirst condFilter (fun p => { p with status := "approved", auto := true }) db.payments),
        { t with pc := .updated, modified := modified }))
  | .updated =>
    (if t.modified then
      match t.payment with
      | some payment =>
        (incBalance db payment.user_id
          ((truncToInt (payment.amount_usd.getD 0 * USD_TO_INR_RATE)) : ℚ),
         { t with pc := .done, credited := true })
      | none => (db, { t with pc := .done })
     else (db, { t with pc := .done }))
  | .done => (db, t)

/-- Program counter of the TTL step of an expiry task: before the status
read (bot.py line 475), before the conditional write (line 477),
finished. -/
inductive ExpPC where
  | start
  | checked
  | done
deriving DecidableEq

/-- The TTL step of handle_oxapay_expiry in flight: the track id and the
status it read. -/
structure ExpTask where
  pc : ExpPC
  track : String
  readStatus : Option String
deriving DecidableEq

/-- One store call of the expiry TTL step (handle_oxapay_expiry lines
474-483 split at its awaits): read the payment, then write expired if the
read status was pending.  The write filter carries no status condition. -/
def expTaskStep (db : DB) (t : ExpTask) : DB × ExpTask :=
  match t.pc with
  | .start =>
    (match findPaymentByTrack db t.track with
     | some p => (db, { t with pc := .checked, readStatus := some p.status })
     | none => (db, { t with pc := .checked, readStatus := none }))
  | .checked =>
    (if t.readStatus == some "pending" then
      (withPayments db
        (updateFirst (fun p => p.oxapay_track_id == some t.track)
          (fun p => { p with status := "expired" }) db.payments),
       { t with pc := .done })
     else (db, { t with pc := .done }))
  | .done => (db, t)

/-- Program counter of a Razorpay payment.captured delivery task: before
the duplicate lookup (razorpay_webhook.py line 54), before the insert
(line 81), before the wallet credit (line 84), finished. -/
inductive RzpPC where
  | start
  | checked
  | inserted
  | done
deriving DecidableEq

/-- An in-flight Razorpay payment.captured delivery. -/
structure RzpTask where
  pc : RzpPC
  ev : RzpEvent
deriving DecidableEq

/-- One store call of a Razorpay payment.captured delivery
(handle_payment_captured split at its awaits): the duplicate check is a
read, the insert and the credit are separate writes. -/
def rzpTaskStep (db : DB) (t : RzpTask) : DB × RzpTask :=
  match t.pc with
  | .start =>
    (match t.ev.payment.notes_user with
     | none => (db, { t with pc := .done })
     | some _ =>
       if (db.payments.find? (fun p => p.razorpay_payment_id == t.ev.payment.id)).isSome then
         (db, { t with pc := .done })
       else (db, { t with pc := .checked }))
  | .checked =>
    (match t.ev.payment.notes_user with
     | none => (db, { t with pc := .done })
     | some user_id =>
       let doc : Payment :=
         { pid := db.nextId
           user_id := user_id
           method := "razorpay"
           amount_usd := some ((t.ev.payment.amount / 100 : Nat) : ℚ)
           amount_inr := some ((t.ev.payment.amount / 100 : Nat) : Int)
           status := "approved"
           oxapay_track_id := none
           razorpay_payment_id := t.ev.payment.id
           auto := false }
       ({ db with payments := db.payments ++ [doc], nextId := db.nextId + 1 },
        { t with pc := .inserted }))
  | .inserted =>
    (match t.ev.payment.notes_user with
     | none => (db, { t with pc := .done })
     | some user_id =>
       (incBalance db user_id ((t.ev.payment.amount / 100 : Nat) : ℚ),
        { t with pc := .done }))
  | .done => (db, t)

/-- A pair of concurrent OxaPay delivery tasks over one store. -/
structure OxaCfg where
  db : DB
  a : OxaTask
  b : OxaTask
deriving DecidableEq

/-- Run one scheduled step: true steps task a, false steps task b. -/
def oxaPairStep (c : OxaCfg) (pick : Bool) : OxaCfg :=
  if pick then
    let s := oxaTaskStep c.db c.a
    { db := s.1, a := s.2, b := c.b }
  else
    let s := oxaTaskStep c.db c.b
    { db := s.1, a := c.a, b := s.2 }

/-- Run a schedule of interleaved steps of two OxaPay deliveries. -/
def oxaPairRun (c : OxaCfg) (sched : List Bool) : OxaCfg :=
  sched.foldl oxaPairStep c

/-- A pair of concurrent Razorpay delivery tasks over one store. -/
structure RzpCfg where
  db : DB
  a : RzpTask
  b : RzpTask
deriving DecidableEq

/-- Run one scheduled step: true steps task a, false steps task b. -/
def rzpPairStep (c : RzpCfg) (pick : Bool) : RzpCfg :=
  if pick then
    let s := rzpTaskStep c.db c.a
    { db := s.1, a := s.2, b := c.b }
  else
    let s := rzpTaskStep c.db c.b
    { db := s.1, a := c.a, b := s.2 }

/-- Run a schedule of interleaved steps of two Razorpay deliveries. -/
def rzpPairRun (c : RzpCfg) (sched : List Bool) : RzpCfg :=
  sched.foldl rzpPairStep c

/-! ### Concrete stores and payloads used by scenarios, counterexamples and
witnesses -/

/-- Scenario store for claim C5: one user with 100 credits and a cart of
two units, one 40-credit product, three available stock items, one
10-percent-at-2 discount rule. -/
def dbC5 : DB :=
  { users := [{ uid := 7, balance_inr := 100, banned := false, flow := none, cart := some (1, 2) }]
    products := [{ pid := 1, price_usd := 40, enabled := true }]
    stocks := [
      { sid := 10, product_id := 1, email := "a", password := "pa", status := "available", sold_to := none, created_at := 1 },
      { sid := 11, product_id := 1, email := "b", password := "pb", status := "available", sold_to := none, created_at := 2 },
      { sid := 12, product_id := 1, email := "c", password := "pc", status := "available", sold_to := none, created_at := 3 }]
    orders := []
    payments := []
    discounts := [{ product_id := 1, rules := [{ min_qty := 2, percent := 10 }] }]
    rzpState := []
    nextId := 100 }

/-- Counterexample store for claim C4: two available items whose collection
order disagrees with their created_at order. -/
def dbC4 : DB :=
  { users := [{ uid := 3, balance_inr := 100, banned := false, flow := none, cart := none }]
    products := [{ pid := 1, price_usd := 10, enabled := true }]
    stocks := [
      { sid := 1, product_id := 1, email := "x", password := "px", status := "available", sold_to := none, created_at := 10 },
      { sid := 2, product_id := 1, email := "y", password := "py", status := "available", sold_to := none, created_at := 5 }]
    orders := []
    payments := []
    discounts := []
    rzpState := []
    nextId := 50 }

/-- The product document of dbC4. -/
def prodC4 : Product := { pid := 1, price_usd := 10, enabled := true }

/-- Witness store for claim C2: a user with no funds. -/
def dbC2 : DB :=
  { users := [{ uid := 3, balance_inr := 0, banned := false, flow := none, cart := none }]
    products := [{ pid := 1, price_usd := 5, enabled := true }]
    stocks := []
    orders := []
    payments := []
    discounts := []
    rzpState := []
    nextId := 20 }

/-- The product document of dbC2. -/
def prodC2 : Product := { pid := 1, price_usd := 5, enabled := true }

/-- Witness store for claim C1: one user and one pending oxapay payment
with track T1 over 1 USD. -/
def dbC1 : DB :=
  { users := [{ uid := 1, balance_inr := 0, banned := false, flow := none, cart := none }]
    products := []
    stocks := []
    orders := []
    payments := [{ pid := 0, user_id := 1, method := "oxapay", amount_usd := some 1,
                   amount_inr := none, status := "pending", oxapay_track_id := some "T1",
                   razorpay_payment_id := none, auto := false }]
    discounts := []
    rzpState := []
    nextId := 9 }

/-- A valid OxaPay settlement payload for track T1. -/
def evC1 : OxaEvent := { track_id := some "T1", status := "paid", amount := some 1 }

/-- Witness store for the C7 method-mismatch case: the payment stored
under track T7 is not an oxapay payment. -/
def dbC7 : DB :=
  { users := [{ uid := 1, balance_inr := 0, banned := false, flow := none, cart := none }]
    products := []
    stocks := []
    orders := []
    payments := [{ pid := 0, user_id := 1, method := "upi", amount_usd := some 1,
                   amount_inr := none, status := "pending", oxapay_track_id := some "T7",
                   razorpay_payment_id := none, auto := false }]
    discounts := []
    rzpState := []
    nextId := 9 }

/-- A payment.captured payload for the given provider payment id, amount
in paise and telegram user id. -/
def evRz (pidStr : String) (paise uid : Nat) : RzpEvent :=
  { event := "payment.captured"
    payment := { id := some pidStr, amount := paise, notes_user := some uid } }

/-- The payment document handle_payment_captured inserts for a fresh
delivery. -/
def rzpDoc (db : DB) (pidStr : String) (paise uid : Nat) : Payment :=
  { pid := db.nextId
    user_id := uid
    method := "razorpay"
    amount_usd := some ((paise / 100 : Nat) : ℚ)
    amount_inr := some ((paise / 100 : Nat) : Int)
    status := "approved"
    oxapay_track_id := none
    razorpay_payment_id := some pidStr
    auto := false }

/-- The store after a fresh (non-duplicate) captured delivery: the
approved document is inserted, the wallet credited, the state entry
dropped. -/
def rzpAfter (db : DB) (pidStr : String) (paise uid : Nat) : DB :=
  let db1 : DB := { db with payments := db.payments ++ [rzpDoc db pidStr paise uid], nextId := db.nextId + 1 }
  let db2 := incBalance db1 uid ((paise / 100 : Nat) : ℚ)
  { db2 with rzpState := removeAssoc db2.rzpState uid }

/-- A Razorpay payment.captured payload for provider payment id PAY9,
5000 paise, telegram user 1. -/
def evR1 : RzpEvent := evRz "PAY9" 5000 1

/-- Initial store of the C8 and C9 OxaPay races: one user with balance 0
and one pending oxapay payment for track T over 1 USD. -/
def dbRace : DB :=
  { users := [{ uid := 1, balance_inr := 0, banned := false, flow := none, cart := none }]
    products := []
    stocks := []
    orders := []
    payments := [{ pid := 0, user_id := 1, method := "oxapay", amount_usd := some 1,
                   amount_inr := none, status := "pending", oxapay_track_id := some "T",
                   razorpay_payment_id := none, auto := false }]
    discounts := []
    rzpState := []
    nextId := 5 }

/-- The settlement payload of the race scenarios. -/
def evRace : OxaEvent := { track_id := some "T", status := "paid", amount := some 1 }

/-- A fresh OxaPay delivery task for the race payload. -/
def oxaT0 : OxaTask :=
  { pc := .start, ev := evRace, payment := none, modified := false, credited := false }

/-- A fresh expiry TTL task for track T. -/
def expT0 : ExpTask := { pc := .start, track := "T", readStatus := none }

/-- Initial store of the C9 Razorpay race: one user with balance 0 and no
payment documents. -/
def dbRzpRace : DB :=
  { users := [{ uid := 1, balance_inr := 0, banned := false, flow := none, cart := none }]
    products := []
    stocks := []
    orders := []
    payments := []
    discounts := []
    rzpState := []
    nextId := 0 }

/-- A fresh Razorpay delivery task for payment id PAY9. -/
def rzpT0 : RzpTask := { pc := .start, ev := evR1 }

/-- The balance of one user, none when the user is absent. -/
def balanceOf (db : DB) (uid : Nat) : Option ℚ :=
  (findUser db uid).map (fun u => u.balance_inr)

/-- The status of the first payment carrying the given track id. -/
def statusByTrack (db : DB) (t : String) : Option String :=
  (findPaymentByTrack db t).map (fun p => p.status)

/-- The operation sequence of the C6 counterexample: create an oxapay
payment for track T1, cancel it, then deliver a valid settlement
webhook. -/
def opsC6 : List Op :=
  [.upsert 1, .payAmount 1 "oxapay", .textAmount 1 (some 5) "T1" "",
   .cancelOxa "T1", .oxaWebhook { track_id := some "T1", status := "paid", amount := some 5 }]

/-- The operation sequence of the C3 counterexample: an admin removes 5
credits from a user whose balance is 0. -/
def opsC3 : List Op :=
  [.upsert 9, .adminAdjust 6670166083 9 false (some 5)]

/-- A trivial stand-in HMAC used to instantiate witnesses. -/
def hmacW : String → String → String := fun s p => s ++ "/" ++ p

/-- The operation sequence of the C10 witness: register user 1, then
deliver a correctly signed payment.captured event for 5000 paise. -/
def opsC10 : List Op :=
  [.upsert 1, .rzpWebhook "body" "change-me/body" evR1]

/-- The razorpay payment document that the C10 witness run inserts. -/
def pC10 : Payment := rzpDoc (upsert_user initDB 1) "PAY9" 5000 1

/-- A payment with this id sits in the store with status approved: the id
occurs among the stored payment ids and every document carrying it reads
approved. -/
def ApprovedAt (db : DB) (pid : Nat) : Prop :=
  pid ∈ db.payments.map (fun p => p.pid)
  ∧ ∀ p ∈ db.payments, p.pid = pid → p.status = "approved"

/-- The settlement payload of the C6 counterexample. -/
def evC6 : OxaEvent := { track_id := some "T1", status := "paid", amount := some 5 }

/-- Store after the first C6 operation: user 1 registered. -/
def dbC6a : DB :=
  { users := [{ uid := 1, balance_inr := 0, banned := false, flow := none, cart := none }]
    products := []
    stocks := []
    orders := []
    payments := []
    discounts := []
    rzpState := []
    nextId := 0 }

/-- Store after the second C6 operation: user 1 awaits an oxapay amount. -/
def dbC6b : DB :=
  { users := [{ uid := 1, balance_inr := 0, banned := false, flow := some (.awaitAmount "oxapay"), cart := none }]
    products := []
    stocks := []
    orders := []
    payments := []
    discounts := []
    rzpState := []
    nextId := 0 }

/-- Store after the third C6 operation: a pending oxapay payment for
track T1 over 5 USD. -/
def dbC6c : DB :=
  { users := [{ uid := 1, balance_inr := 0, banned := false, flow := none, cart := none }]
    products := []
    stocks := []
    orders := []
    payments := [{ pid := 0, user_id := 1, method := "oxapay", amount_usd := some 5,
                   amount_inr := none, status := "pending", oxapay_track_id := some "T1",
                   razorpay_payment_id := none, auto := false }]
    discounts := []
    rzpState := []
    nextId := 1 }

/-- Store after the fourth C6 operation: the payment is cancelled, a
terminal status. -/
def dbC6 : DB :=
  { users := [{ uid := 1, balance_inr := 0, banned := false, flow := none, cart := none }]
    products := []
    stocks := []
    orders := []
    payments := [{ pid := 0, user_id := 1, method := "oxapay", amount_usd := some 5,
                   amount_inr := none, status := "cancelled", oxapay_track_id := some "T1",
                   razorpay_payment_id := none, auto := false }]
    discounts := []
    rzpState := []
    nextId := 1 }

/-- Witness store for the C8 TTL guard: an approved oxapay payment under
track T. -/
def dbC8 : DB :=
  { users := [{ uid := 1, balance_inr := 90, banned := false, flow := none, cart := none }]
    products := []
    stocks := []
    orders := []
    payments := [{ pid := 0, user_id := 1, method := "oxapay", amount_usd := some 1,
                   amount_inr := none, status := "approved", oxapay_track_id := some "T",
                   razorpay_payment_id := none, auto := true }]
    discounts := []
    rzpState := []
    nextId := 5 }

/-- An OxaPay settlement delivery interleaved with an expiry TTL task over
one store. -/
structure MixCfg where
  db : DB
  w : OxaTask
  e : ExpTask
deriving DecidableEq

/-- Run one scheduled step: true steps the settlement delivery, false the
expiry task. -/
def mixStep (c : MixCfg) (pick : Bool) : MixCfg :=
  if pick then
    let s := oxaTaskStep c.db c.w
    { db := s.1, w := s.2, e := c.e }
  else
    let s := expTaskStep c.db c.e
    { db := s.1, w := c.w, e := s.2 }

/-- Run a schedule of interleaved steps of a settlement delivery and an
expiry task. -/
def mixRun (c : MixCfg) (sched : List Bool) : MixCfg :=
  sched.foldl mixStep c

/-- A fresh OxaPay delivery task for a payload. -/
def oxaFresh (ev : OxaEvent) : OxaTask :=
  { pc := .start, ev := ev, payment := none, modified := false, credited := false }

/-- The conditional-update filter of the OxaPay webhook for a track. -/
def condT (t : String) : Payment → Bool :=
  fun p => p.oxapay_track_id == some t && p.status != "approved"

/-- Credit tokens held by one delivery task: one for a won conditional
update not yet turned into a credit, one for a credit already made. -/
def taskTok (tk : OxaTask) : Nat :=
  (if tk.pc = OxaPC.updated ∧ tk.modified = true then 1 else 0)
  + (if tk.credited = true then 1 else 0)

/-- Credit tokens of a pair configuration: pending conditional-update
matches in the store plus the tokens of both tasks. -/
def cfgTok (t : String) (c : OxaCfg) : Nat :=
  c.db.payments.countP (condT t) + taskTok c.a + taskTok c.b

/-- Operation suffix of the C6 witness: an expiry tick after the C10
operations. -/
def opsC6W : List Op := [.oxaExpire "T"]

/-! ### Lemmas about the store primitives -/

theorem updateFirst_of_find?_eq_none {α : Type} (pr : α → Bool) (f : α → α) :
    ∀ l : List α, l.find? pr = none → updateFirst pr f l = l := by
  intro l
  induction l with
  | nil => intro _; rfl
  | cons a t ih =>
    intro h
    by_cases hpa : pr a
    · simp [List.find?, hpa] at h
    · rw [List.find?_cons_of_neg _ hpa] at h
      simp only [Bool.not_eq_true] at hpa
      simp [updateFirst, hpa, ih h]

theorem mem_updateFirst {α : Type} (pr : α → Bool) (f : α → α) (a : α) :
    ∀ l : List α, a ∈ updateFirst pr f l →
      a ∈ l ∨ ∃ b, l.find? pr = some b ∧ a = f b := by
  intro l
  induction l with
  | nil => intro h; exact Or.inl h
  | cons c t ih =>
    intro h
    by_cases hpc : pr c
    · simp only [updateFirst, if_pos hpc] at h
      rcases List.mem_cons.mp h with h1 | h1
      · exact Or.inr ⟨c, by simp [List.find?, hpc], h1⟩
      · exact Or.inl (List.mem_cons_of_mem _ h1)
    · simp only [updateFirst, if_neg hpc] at h
      rcases List.mem_cons.mp h with h1 | h1
      · exact Or.inl (h1 ▸ List.mem_cons_self _ _)
      · rcases ih h1 with h2 | ⟨b, hb1, hb2⟩
        · exact Or.inl (List.mem_cons_of_mem _ h2)
        · refine Or.inr ⟨b, ?_, hb2⟩
          simp only [Bool.not_eq_true] at hpc
          simp [List.find?, hpc, hb1]

theorem find?_strengthen {α : Type} (pr q : α → Bool) (b : α) :
    ∀ l : List α, l.find? pr = some b → q b = true →
      l.find? (fun x => pr x && q x) = some b := by
  intro l
  induction l with
  | nil => intro h _; simp [List.find?] at h
  | cons c t ih =>
    intro h hq
    by_cases hpc : pr c
    · simp [List.find?, hpc] at h
      subst h
      simp [List.find?, hpc, hq]
    · simp only [Bool.not_eq_true] at hpc
      simp [List.find?, hpc] at h
      have := ih h hq
      simp [List.find?, hpc, this]

theorem find?_updateFirst_cond {α : Type} (tr cond : α → Bool) (f : α → α)
    (hct : ∀ x, cond x = true → tr x = true) (b : α) :
    ∀ l : List α, l.find? tr = some b → cond b = true → tr (f b) = true →
      (updateFirst cond f l).find? tr = some (f b) := by
  intro l
  induction l with
  | nil => intro h _ _; simp [List.find?] at h
  | cons c t ih =>
    intro h hcb hfb
    by_cases htc : tr c
    · simp [List.find?, htc] at h
      subst h
      simp [updateFirst, hcb, List.find?, hfb]
    · have hcc : cond c = false := by
        cases hc : cond c
        · rfl
        · exact absurd (hct c hc) htc
      simp only [Bool.not_eq_true] at htc
      simp [List.find?, htc] at h
      simp [updateFirst, hcc, List.find?, htc, ih h hcb hfb]

theorem countP_updateFirst {α : Type} (pr q : α → Bool) (f : α → α)
    (hq : ∀ a, q (f a) = q a) :
    ∀ l : List α, (updateFirst pr f l).countP q = l.countP q := by
  intro l
  induction l with
  | nil => rfl
  | cons c t ih =>
    by_cases hpc : pr c
    · simp [updateFirst, hpc, List.countP_cons, hq]
    · simp [updateFirst, hpc, List.countP_cons, ih]

theorem find?_cond_none_after {α : Type} (tr cond : α → Bool) (f : α → α)
    (hct : ∀ x, cond x = true → tr x = true)
    (hfb : ∀ x, cond (f x) = false) (b : α) :
    ∀ l : List α, l.find? tr = some b → l.countP tr ≤ 1 →
      (updateFirst cond f l).find? cond = none := by
  intro l
  induction l with
  | nil => intro h _; simp [List.find?] at h
  | cons c t ih =>
    intro h hcount
    by_cases htc : tr c
    · have ht0 : t.countP tr = 0 := by
        rw [List.countP_cons, if_pos htc] at hcount
        omega
      have hallt : ∀ x ∈ t, ¬ tr x = true := List.countP_eq_zero.mp ht0
      have hcondt : ∀ x ∈ t, ¬ cond x = true := by
        intro x hx hc
        exact hallt x hx (hct x hc)
      by_cases hcc : cond c
      · simp only [updateFirst, if_pos hcc]
        rw [List.find?_cons_of_neg _ (by simp [hfb c])]
        exact List.find?_eq_none.mpr hcondt
      · simp only [updateFirst, if_neg hcc]
        rw [List.find?_cons_of_neg _ hcc]
        have hteq : updateFirst cond f t = t :=
          updateFirst_of_find?_eq_none cond f t (List.find?_eq_none.mpr hcondt)
        rw [hteq]
        exact List.find?_eq_none.mpr hcondt
    · have hcc : cond c = false := by
        cases hc : cond c
        · rfl
        · exact absurd (hct c hc) htc
      have hcount2 : t.countP tr ≤ 1 := by
        rw [List.countP_cons, if_neg htc] at hcount
        omega
      rw [List.find?_cons_of_neg _ htc] at h
      simp only [Bool.not_eq_true] at htc
      simp [updateFirst, hcc, List.find?, ih h hcount2]

theorem find?_append_none {α : Type} (pr : α → Bool) :
    ∀ l₁ l₂ : List α, l₁.find? pr = none → (l₁ ++ l₂).find? pr = l₂.find? pr := by
  intro l₁ l₂ h
  rw [List.find?_append, h, Option.none_or]

theorem nodup_map_pid_eq {α β : Type} (g : α → β) :
    ∀ l : List α, (l.map g).Nodup → ∀ a ∈ l, ∀ b ∈ l, g a = g b → a = b := by
  intro l
  induction l with
  | nil => intro _ a ha; simp at ha
  | cons c t ih =>
    intro hnd a ha b hb hab
    simp only [List.map_cons, List.nodup_cons] at hnd
    rcases List.mem_cons.mp ha with rfl | h1 <;> rcases List.mem_cons.mp hb with rfl | h2
    · rfl
    · exact absurd (show g a ∈ t.map g by rw [hab]; exact List.mem_map_of_mem g h2) hnd.1
    · exact absurd (show g b ∈ t.map g by rw [← hab]; exact List.mem_map_of_mem g h1) hnd.1
    · exact ih hnd.2 a h1 b h2 hab

/-! ### Claim C2: failed purchases have no partial effect -/

theorem purchase_body_error_or_ok (db : DB) (uid : Nat) (prod : Product)
    (qty : Nat) (total : ℚ) :
    (purchase_body db uid prod qty total).1 = db ∨
      ∃ v, (purchase_body db uid prod qty total).2 = Except.ok v := by
  unfold purchase_body
  cases findUser db uid with
  | none => exact Or.inl rfl
  | some user =>
    dsimp only
    by_cases h1 : user.banned
    · rw [if_pos h1]
      exact Or.inl rfl
    · rw [if_neg h1]
      by_cases h2 : user.balance_inr < total
      · rw [if_pos h2]
        exact Or.inl rfl
      · rw [if_neg h2]
        by_cases h3 : ((availStocks db prod.pid).take qty).length < qty
        · rw [if_pos h3]
          exact Or.inl rfl
        · rw [if_neg h3]
          exact Or.inr ⟨_, rfl⟩

/-- Claim C2: when a purchase fails (in particular with insufficient
balance or insufficient stock), the transaction returns the store
unchanged, and the body raised before performing any write, so no stock
status, balance or order was touched. -/
theorem C2_purchase_failure_atomic (db : DB) (uid : Nat) (prod : Product)
    (qty : Nat) (total : ℚ) (db2 : DB) (e : String) :
    purchase_transaction db uid prod qty total = (db2, Except.error e) →
    db2 = db ∧ purchase_body db uid prod qty total = (db, Except.error e) := by
  intro h
  rcases hb : purchase_body db uid prod qty total with ⟨db1, r⟩
  unfold purchase_transaction at h
  rw [hb] at h
  cases r with
  | ok v => simp at h
  | error e2 =>
    simp only [Prod.mk.injEq, Except.error.injEq] at h
    obtain ⟨hdb, he⟩ := h
    refine ⟨hdb.symm, ?_⟩
    have hd1 : db1 = db := by
      rcases purchase_body_error_or_ok db uid prod qty total with h3 | ⟨v, h3⟩
      · rw [hb] at h3; exact h3
      · rw [hb] at h3; simp at h3
    rw [hd1, he]

/-- Witness for C2: a purchase by a user with balance 0 and total 5 fails
with insufficient balance and the body performed no write. -/
theorem C2_purchase_failure_atomic_witness :
    purchase_body dbC2 3 prodC2 1 5 = (dbC2, Except.error "Insufficient wallet balance") :=
  (C2_purchase_failure_atomic dbC2 3 prodC2 1 5 dbC2 "Insufficient wallet balance"
    (by simp [purchase_transaction, purchase_body, dbC2, prodC2, findUser])).2

/-! ### Claim C4: stock selection order and insufficient stock -/

/-- Counterexample to claim C4 as stated: in dbC4 the two available items
appear in collection order (sid 1, created 10) then (sid 2, created 5); a
purchase of quantity 1 sells sid 1, while the oldest-first selection the
claim describes picks sid 2. -/
theorem C4_counterexample :
    soldIds (purchase_transaction dbC4 3 prodC4 1 10).1 = [1]
    ∧ fifoSelectedIds dbC4 1 1 = [2]
    ∧ soldIds (purchase_transaction dbC4 3 prodC4 1 10).1 ≠ fifoSelectedIds dbC4 1 1 := by
  refine ⟨?_, ?_, ?_⟩
  · simp [purchase_transaction, purchase_body, dbC4, prodC4, findUser, availStocks,
      soldIds, updateFirst]
    rfl
  · simp [fifoSelectedIds, sortByCreated, insertByCreated, availStocks, dbC4]
  · simp [purchase_transaction, purchase_body, dbC4, prodC4, findUser, availStocks,
      soldIds, updateFirst, fifoSelectedIds, sortByCreated, insertByCreated]
    first
    | rfl
    | decide

/-- Claim C4, amended: the purchase selects the first `qty` available items
of the product in collection order (the query has no sort, so the order is
the collection order, not the created_at order), flips exactly those to
sold, and fails with the insufficient-stock error when fewer than `qty`
are available. -/
theorem C4_selection (db : DB) (uid : Nat) (prod : Product) (qty : Nat)
    (total : ℚ) (user : UserDoc) :
    findUser db uid = some user → user.banned = false →
    ¬(user.balance_inr < total) →
    (((availStocks db prod.pid).length < qty →
        purchase_transaction db uid prod qty total
          = (db, Except.error "Not enough stock available"))
      ∧ (qty ≤ (availStocks db prod.pid).length →
          (purchase_transaction db uid prod qty total).2
            = Except.ok (db.nextId,
                ((availStocks db prod.pid).take qty).map
                  (fun s => "Email: " ++ s.email ++ "\nPassword: " ++ s.password))
          ∧ (purchase_transaction db uid prod qty total).1.stocks
            = db.stocks.map (fun s =>
                if (((availStocks db prod.pid).take qty).map (fun x => x.sid)).contains s.sid
                then { s with status := "sold", sold_to := some uid } else s))) := by
  intro hfu hb hbal
  constructor
  · intro hlen
    have hlt : ((availStocks db prod.pid).take qty).length < qty := by
      rw [List.length_take]
      omega
    unfold purchase_transaction purchase_body
    rw [hfu]
    simp only [hb, Bool.false_eq_true, if_false, if_neg hbal, if_pos hlt]
  · intro hlen
    have hnlt : ¬ ((availStocks db prod.pid).take qty).length < qty := by
      rw [List.length_take]
      omega
    unfold purchase_transaction purchase_body
    rw [hfu]
    simp only [hb, Bool.false_eq_true, if_false, if_neg hbal, if_neg hnlt]
    constructor
    · first
      | rfl
      | trivial
    · first
      | rfl
      | trivial

/-- Witness for C4 amended: in dbC4 a purchase of quantity 1 succeeds,
sells exactly the first available item in collection order (sid 1), and a
purchase of quantity 3 fails with the insufficient-stock error. -/
theorem C4_selection_witness :
    purchase_transaction dbC4 3 prodC4 3 10 = (dbC4, Except.error "Not enough stock available")
    ∧ (purchase_transaction dbC4 3 prodC4 1 10).2
        = Except.ok (50, [("Email: " ++ "x" ++ "\nPassword: " ++ "px")]) := by
  constructor
  · exact (C4_selection dbC4 3 prodC4 3 10
      { uid := 3, balance_inr := 100, banned := false, flow := none, cart := none }
      (by simp [findUser, dbC4]) rfl (by norm_num)).1
      (by simp [availStocks, dbC4, prodC4])
  · have h := (C4_selection dbC4 3 prodC4 1 10
      { uid := 3, balance_inr := 100, banned := false, flow := none, cart := none }
      (by simp [findUser, dbC4]) rfl (by norm_num)).2
      (by simp [availStocks, dbC4, prodC4])
    rw [h.1]
    simp [availStocks, dbC4, prodC4]

/-! ### Claim C5: pricing formula, best discount, and the scenario -/

theorem bdp_foldl_init_le (qty : Nat) :
    ∀ (l : List DiscountRule) (b : Int),
      b ≤ l.foldl (fun best r => if (qty : Int) ≥ r.min_qty then max best r.percent else best) b := by
  intro l
  induction l with
  | nil => intro b; exact le_refl b
  | cons a t ih =>
    intro b
    refine le_trans ?_ (ih _)
    by_cases h : (qty : Int) ≥ a.min_qty
    · simp only [if_pos h]
      exact le_max_left _ _
    · simp only [if_neg h]
      exact le_refl b

theorem bdp_foldl_mem_le (qty : Nat) (r : DiscountRule) :
    ∀ (l : List DiscountRule), r ∈ l → r.min_qty ≤ (qty : Int) →
      ∀ b : Int,
        r.percent ≤ l.foldl (fun best x => if (qty : Int) ≥ x.min_qty then max best x.percent else best) b := by
  intro l
  induction l with
  | nil => intro h; simp at h
  | cons a t ih =>
    intro hmem hq b
    rcases List.mem_cons.mp hmem with h1 | h1
    · subst h1
      simp only [List.foldl_cons, if_pos hq]
      refine le_trans (le_max_right _ _) (bdp_foldl_init_le qty t _)
    · simp only [List.foldl_cons]
      exact ih h1 hq _

theorem bdp_foldl_attained (qty : Nat) :
    ∀ (l : List DiscountRule) (b : Int),
      l.foldl (fun best x => if (qty : Int) ≥ x.min_qty then max best x.percent else best) b = b
      ∨ ∃ r ∈ l, r.min_qty ≤ (qty : Int) ∧
          l.foldl (fun best x => if (qty : Int) ≥ x.min_qty then max best x.percent else best) b = r.percent := by
  intro l
  induction l with
  | nil => intro b; exact Or.inl rfl
  | cons a t ih =>
    intro b
    simp only [List.foldl_cons]
    by_cases h : (qty : Int) ≥ a.min_qty
    · simp only [if_pos h]
      rcases ih (max b a.percent) with h1 | ⟨r, hr1, hr2, hr3⟩
      · rcases max_choice b a.percent with h2 | h2
        · exact Or.inl (by rw [h1, h2])
        · exact Or.inr ⟨a, List.mem_cons_self _ _, h, by rw [h1, h2]⟩
      · exact Or.inr ⟨r, List.mem_cons_of_mem _ hr1, hr2, hr3⟩
    · simp only [if_neg h]
      rcases ih b with h1 | ⟨r, hr1, hr2, hr3⟩
      · exact Or.inl h1
      · exact Or.inr ⟨r, List.mem_cons_of_mem _ hr1, hr2, hr3⟩

/-- Claim C5: the charged total follows the formula
unit times qty times (1 - percent/100); the best discount percent is an
upper bound of (and is attained by, unless zero) the rules whose threshold
is met; and the concrete scenario: balance 100, two units at 40 credits
with a 10-percent-at-2 rule cost 72, leave balance 28, one order of
quantity 2 with two delivered payloads, and exactly 2 stock items sold. -/
theorem C5_pricing_formula_and_scenario :
    (∀ (unit : ℚ) (d : Int) (qty : Nat),
        confirm_total unit d qty = unit * (qty : ℚ) * (1 - (d : ℚ) / 100))
    ∧ (∀ (db : DB) (pid qty : Nat) (doc : DiscountDoc) (r : DiscountRule),
        db.discounts.find? (fun x => x.product_id == pid) = some doc →
        r ∈ doc.rules → r.min_qty ≤ (qty : Int) →
        r.percent ≤ best_discount_percent db pid qty)
    ∧ (∀ (db : DB) (pid qty : Nat) (doc : DiscountDoc),
        db.discounts.find? (fun x => x.product_id == pid) = some doc →
        best_discount_percent db pid qty = 0
          ∨ ∃ r ∈ doc.rules, r.min_qty ≤ (qty : Int) ∧ best_discount_percent db pid qty = r.percent)
    ∧ ((cb_confirm dbC5 7 1).1.users.map (fun u => u.balance_inr)) = [28]
    ∧ ((cb_confirm dbC5 7 1).1.orders.map (fun o => (o.qty, o.total_usd, o.delivered.length))) = [(2, 72, 2)]
    ∧ ((cb_confirm dbC5 7 1).1.stocks.filter (fun s => s.status == "sold")).length = 2
    ∧ (cb_confirm dbC5 7 1).2
        = Except.ok (100, ["Email: a\nPassword: pa", "Email: b\nPassword: pb"]) := by
  refine ⟨?_, ?_, ?_, ?_, ?_, ?_, ?_⟩
  · intro unit d qty
    unfold confirm_total
    ring
  · intro db pid qty doc r hfind hmem hq
    unfold best_discount_percent
    rw [hfind]
    exact bdp_foldl_mem_le qty r doc.rules hmem hq 0
  · intro db pid qty doc hfind
    unfold best_discount_percent
    rw [hfind]
    exact bdp_foldl_attained qty doc.rules 0
  · simp [cb_confirm, dbC5, upsert_user, findUser, purchase_transaction, purchase_body,
      best_discount_percent, confirm_total, availStocks, updateFirst]
    norm_num
  · simp [cb_confirm, dbC5, upsert_user, findUser, purchase_transaction, purchase_body,
      best_discount_percent, confirm_total, availStocks, updateFirst]
    norm_num
  · simp [cb_confirm, dbC5, upsert_user, findUser, purchase_transaction, purchase_body,
      best_discount_percent, confirm_total, availStocks, updateFirst]
    norm_num
    all_goals decide
  · simp [cb_confirm, dbC5, upsert_user, findUser, purchase_transaction, purchase_body,
      best_discount_percent, confirm_total, availStocks, updateFirst]
    norm_num

/-! ### Claim C1: webhook replay credits exactly once -/

theorem oxa_apply_not_approved (db : DB) (track st : String) (q : ℚ) (p : Payment)
    (hfind : findPaymentByTrack db track = some p)
    (hm : p.method = "oxapay") (hs : p.status ≠ "approved")
    (hst : ["paid", "confirming", "completed"].contains st = true) :
    oxapay_webhook db { track_id := some track, status := st, amount := some q }
      = (incBalance
          (withPayments db
            (updateFirst (fun x => x.oxapay_track_id == some track && x.status != "approved")
              (fun x => { x with status := "approved", auto := true }) db.payments))
          p.user_id ((truncToInt (p.amount_usd.getD 0 * USD_TO_INR_RATE)) : ℚ),
         { ok := true, error := none, msg := none }) := by
  have hq : (p.status != "approved") = true := by
    simp [bne_iff_ne, hs]
  have hcf : db.payments.find?
      (fun x => x.oxapay_track_id == some track && x.status != "approved") = some p :=
    find?_strengthen _ _ p db.payments hfind hq
  unfold oxapay_webhook
  dsimp only
  rw [if_neg (by rw [hst]; simp)]
  rw [hfind]
  dsimp only
  rw [if_neg (by simp [hm]), if_neg (by simp [hs]), hcf]
  simp

theorem oxa_apply_approved (db : DB) (track st : String) (q : ℚ) (p : Payment)
    (hfind : findPaymentByTrack db track = some p)
    (hm : p.method = "oxapay") (hs : p.status = "approved")
    (hst : ["paid", "confirming", "completed"].contains st = true) :
    oxapay_webhook db { track_id := some track, status := st, amount := some q }
      = (db, { ok := true, error := none, msg := some "already processed" }) := by
  unfold oxapay_webhook
  dsimp only
  rw [if_neg (by rw [hst]; simp)]
  rw [hfind]
  dsimp only
  rw [if_neg (by simp [hm]), if_pos (by simp [hs])]

theorem rzp_apply_fresh (db : DB) (pidStr : String) (paise uid : Nat)
    (hnone : db.payments.find? (fun x => x.razorpay_payment_id == some pidStr) = none) :
    handle_payment_captured db (evRz pidStr paise uid) = rzpAfter db pidStr paise uid := by
  unfold handle_payment_captured evRz rzpAfter rzpDoc
  dsimp only
  rw [hnone]

theorem rzp_apply_duplicate (db : DB) (pidStr : String) (paise uid : Nat) (d : Payment)
    (hdup : db.payments.find? (fun x => x.razorpay_payment_id == some pidStr) = some d) :
    handle_payment_captured db (evRz pidStr paise uid) = db := by
  unfold handle_payment_captured evRz
  dsimp only
  rw [hdup]

/-- Claim C1: replaying the same webhook payload any number of times
credits exactly once.  OxaPay: from a store where the track resolves to a
pending oxapay payment, the n-th delivery (n at least 1) leaves the store
exactly as the first did, and the first credits the stored amount once.
Razorpay: from a store with no document for the provider payment id, the
n-th delivery equals the first, which credits amount div 100 once. -/
theorem C1_replay_single_credit :
    (∀ (db : DB) (track st : String) (q : ℚ) (p : Payment) (u : UserDoc),
      findPaymentByTrack db track = some p →
      p.method = "oxapay" → p.status ≠ "approved" →
      findUser db p.user_id = some u →
      ["paid", "confirming", "completed"].contains st = true →
      ∀ n : Nat, 1 ≤ n →
        (oxaApply { track_id := some track, status := st, amount := some q })^[n] db
          = oxaApply { track_id := some track, status := st, amount := some q } db
        ∧ balanceOf ((oxaApply { track_id := some track, status := st, amount := some q })^[n] db) p.user_id
          = some (u.balance_inr + ((truncToInt (p.amount_usd.getD 0 * USD_TO_INR_RATE)) : ℚ)))
    ∧ (∀ (db : DB) (pidStr : String) (paise uid : Nat) (u : UserDoc),
      db.payments.find? (fun x => x.razorpay_payment_id == some pidStr) = none →
      findUser db uid = some u →
      ∀ n : Nat, 1 ≤ n →
        (rzpApply (evRz pidStr paise uid))^[n] db = rzpApply (evRz pidStr paise uid) db
        ∧ balanceOf ((rzpApply (evRz pidStr paise uid))^[n] db) uid
          = some (u.balance_inr + ((paise / 100 : Nat) : ℚ))) := by
  constructor
  · intro db track st q p u hfind hm hs hu hst n hn
    have hfindL : db.payments.find? (fun x => x.oxapay_track_id == some track) = some p := hfind
    have huL : db.users.find? (fun x => x.uid == p.user_id) = some u := hu
    have h1 : oxaApply { track_id := some track, status := st, amount := some q } db
        = incBalance
            (withPayments db
              (updateFirst (fun x => x.oxapay_track_id == some track && x.status != "approved")
                (fun x => { x with status := "approved", auto := true }) db.payments))
            p.user_id ((truncToInt (p.amount_usd.getD 0 * USD_TO_INR_RATE)) : ℚ) := by
      unfold oxaApply
      rw [oxa_apply_not_approved db track st q p hfind hm hs hst]
    have hfind2 : findPaymentByTrack
        (oxaApply { track_id := some track, status := st, amount := some q } db) track
        = some { p with status := "approved", auto := true } := by
      rw [h1]
      unfold findPaymentByTrack incBalance withPayments
      dsimp only
      refine find?_updateFirst_cond (fun x => x.oxapay_track_id == some track)
        (fun x => x.oxapay_track_id == some track && x.status != "approved")
        (fun x => { x with status := "approved", auto := true })
        ?_ p db.payments hfindL ?_ ?_
      · intro x hx
        show (x.oxapay_track_id == some track) = true
        have hx2 : (x.oxapay_track_id == some track && x.status != "approved") = true := hx
        cases hA : (x.oxapay_track_id == some track) with
        | false => rw [hA] at hx2; simp at hx2
        | true => rfl
      · show (p.oxapay_track_id == some track && p.status != "approved") = true
        rw [Bool.and_eq_true]
        exact ⟨by simpa using List.find?_some hfindL, by simp [bne_iff_ne, hs]⟩
      · show (({ p with status := "approved", auto := true } : Payment).oxapay_track_id == some track) = true
        simpa using List.find?_some hfindL
    have hm2 : ({ p with status := "approved", auto := true } : Payment).method = "oxapay" := hm
    have hs2 : ({ p with status := "approved", auto := true } : Payment).status = "approved" := rfl
    have hstable : oxaApply { track_id := some track, status := st, amount := some q }
        (oxaApply { track_id := some track, status := st, amount := some q } db)
        = oxaApply { track_id := some track, status := st, amount := some q } db := by
      have happ := oxa_apply_approved
        (oxaApply { track_id := some track, status := st, amount := some q } db)
        track st q { p with status := "approved", auto := true } hfind2 hm2 hs2 hst
      unfold oxaApply at happ ⊢
      rw [happ]
    have hiter : ∀ m : Nat,
        (oxaApply { track_id := some track, status := st, amount := some q })^[m]
          (oxaApply { track_id := some track, status := st, amount := some q } db)
        = oxaApply { track_id := some track, status := st, amount := some q } db := by
      intro m
      induction m with
      | zero => rfl
      | succ k ih => rw [Function.iterate_succ_apply, hstable, ih]
    obtain ⟨m, rfl⟩ : ∃ m, n = m + 1 := ⟨n - 1, by omega⟩
    have hiter2 : (oxaApply { track_id := some track, status := st, amount := some q })^[m + 1] db
        = oxaApply { track_id := some track, status := st, amount := some q } db := by
      rw [Function.iterate_succ_apply, hiter]
    refine ⟨hiter2, ?_⟩
    rw [hiter2, h1]
    unfold balanceOf findUser incBalance withPayments
    dsimp only
    have hupd := find?_updateFirst_cond (fun x : UserDoc => x.uid == p.user_id)
      (fun x : UserDoc => x.uid == p.user_id)
      (fun x : UserDoc => { x with balance_inr := x.balance_inr + ((truncToInt (p.amount_usd.getD 0 * USD_TO_INR_RATE)) : ℚ) })
      (fun x hx => hx) u db.users huL (by simpa using List.find?_some huL)
      (by simpa using List.find?_some huL)
    rw [hupd]
    rfl
  · intro db pidStr paise uid u hnone hu n hn
    have huL : db.users.find? (fun x => x.uid == uid) = some u := hu
    have h1 := rzp_apply_fresh db pidStr paise uid hnone
    have hfind2 : (rzpApply (evRz pidStr paise uid) db).payments.find?
        (fun x => x.razorpay_payment_id == some pidStr)
        = some (rzpDoc db pidStr paise uid) := by
      unfold rzpApply
      rw [h1]
      unfold rzpAfter
      dsimp only [incBalance]
      rw [find?_append_none _ _ _ hnone]
      simp [List.find?, rzpDoc]
    have hstable : rzpApply (evRz pidStr paise uid) (rzpApply (evRz pidStr paise uid) db)
        = rzpApply (evRz pidStr paise uid) db := by
      have happ := rzp_apply_duplicate (rzpApply (evRz pidStr paise uid) db) pidStr paise uid
        (rzpDoc db pidStr paise uid) hfind2
      unfold rzpApply at happ ⊢
      exact happ
    have hiter : ∀ m : Nat,
        (rzpApply (evRz pidStr paise uid))^[m] (rzpApply (evRz pidStr paise uid) db)
        = rzpApply (evRz pidStr paise uid) db := by
      intro m
      induction m with
      | zero => rfl
      | succ k ih => rw [Function.iterate_succ_apply, hstable, ih]
    obtain ⟨m, rfl⟩ : ∃ m, n = m + 1 := ⟨n - 1, by omega⟩
    have hiter2 : (rzpApply (evRz pidStr paise uid))^[m + 1] db
        = rzpApply (evRz pidStr paise uid) db := by
      rw [Function.iterate_succ_apply, hiter]
    refine ⟨hiter2, ?_⟩
    rw [hiter2]
    unfold rzpApply
    rw [h1]
    unfold rzpAfter balanceOf findUser incBalance
    dsimp only
    have hupd := find?_updateFirst_cond (fun x : UserDoc => x.uid == uid)
      (fun x : UserDoc => x.uid == uid)
      (fun x : UserDoc => { x with balance_inr := x.balance_inr + ((paise / 100 : Nat) : ℚ) })
      (fun x hx => hx) u db.users huL (by simpa using List.find?_some huL)
      (by simpa using List.find?_some huL)
    rw [hupd]
    rfl

/-- Witness for C1: two deliveries of the same OxaPay payload on dbC1
equal one delivery and credit 90 once; same for a Razorpay payload. -/
theorem C1_replay_single_credit_witness :
    (oxaApply evC1)^[2] dbC1 = oxaApply evC1 dbC1
    ∧ balanceOf ((oxaApply evC1)^[2] dbC1) 1 = some (0 + ((truncToInt ((1 : ℚ) * USD_TO_INR_RATE)) : ℚ))
    ∧ (rzpApply evR1)^[2] dbC1 = rzpApply evR1 dbC1
    ∧ balanceOf ((rzpApply evR1)^[2] dbC1) 1 = some (0 + ((5000 / 100 : Nat) : ℚ)) := by
  have h1 := C1_replay_single_credit.1 dbC1 "T1" "paid" 1
    { pid := 0, user_id := 1, method := "oxapay", amount_usd := some 1,
      amount_inr := none, status := "pending", oxapay_track_id := some "T1",
      razorpay_payment_id := none, auto := false }
    { uid := 1, balance_inr := 0, banned := false, flow := none, cart := none }
    (by simp [findPaymentByTrack, dbC1]) rfl (by simp) (by simp [findUser, dbC1]) (by simp)
    2 (by omega)
  have h2 := C1_replay_single_credit.2 dbC1 "PAY9" 5000 1
    { uid := 1, balance_inr := 0, banned := false, flow := none, cart := none }
    (by simp [dbC1]) (by simp [findUser, dbC1]) 2 (by omega)
  exact ⟨h1.1, h1.2, h2.1, h2.2⟩

/-! ### Claim C7: unauthentic webhook events are rejected without state
change -/

/-- Claim C7: a Razorpay delivery with a wrong signature is rejected with
ok false and no state change; an OxaPay delivery whose track id resolves
to no stored payment, or to a payment of a different method, is rejected
with ok false and no state change. -/
theorem C7_unauthentic_rejected :
    (∀ (hmacF : String → String → String) (secret rawBody signature : String)
        (ev : RzpEvent) (db : DB),
      hmacF secret rawBody ≠ signature →
      razorpay_webhook hmacF (some secret) db rawBody signature ev
        = (db, { ok := false, error := some "Invalid signature", msg := none }))
    ∧ (∀ (db : DB) (track st : String) (q : ℚ),
      ["paid", "confirming", "completed"].contains st = true →
      findPaymentByTrack db track = none →
      oxapay_webhook db { track_id := some track, status := st, amount := some q }
        = (db, { ok := false, error := some "payment not found", msg := none }))
    ∧ (∀ (db : DB) (track st : String) (q : ℚ) (p : Payment),
      ["paid", "confirming", "completed"].contains st = true →
      findPaymentByTrack db track = some p →
      p.method ≠ "oxapay" →
      oxapay_webhook db { track_id := some track, status := st, amount := some q }
        = (db, { ok := false, error := some "invalid payment method", msg := none })) := by
  refine ⟨?_, ?_, ?_⟩
  · intro hmacF secret rawBody signature ev db hsig
    unfold razorpay_webhook verify_webhook_signature
    rw [if_pos (by simp [hsig])]
  · intro db track st q hst hnone
    unfold oxapay_webhook
    dsimp only
    rw [if_neg (by rw [hst]; simp), hnone]
  · intro db track st q p hst hfind hm
    unfold oxapay_webhook
    dsimp only
    rw [if_neg (by rw [hst]; simp), hfind]
    dsimp only
    rw [if_pos (by simp [hm])]

/-- Witness for C7: concrete rejected deliveries on dbC1. -/
theorem C7_unauthentic_rejected_witness :
    razorpay_webhook hmacW (some "change-me") dbC1 "body" "WRONG" evR1
      = (dbC1, { ok := false, error := some "Invalid signature", msg := none })
    ∧ oxapay_webhook dbC1 { track_id := some "NOPE", status := "paid", amount := some 1 }
      = (dbC1, { ok := false, error := some "payment not found", msg := none })
    ∧ oxapay_webhook dbC7 { track_id := some "T7", status := "paid", amount := some 1 }
      = (dbC7, { ok := false, error := some "invalid payment method", msg := none }) := by
  refine ⟨?_, ?_, ?_⟩
  · exact C7_unauthentic_rejected.1 hmacW "change-me" "body" "WRONG" evR1 dbC1 (by simp [hmacW])
  · exact C7_unauthentic_rejected.2.1 dbC1 "NOPE" "paid" 1 (by simp)
      (by simp [findPaymentByTrack, dbC1])
  · exact C7_unauthentic_rejected.2.2 dbC7 "T7" "paid" 1
      { pid := 0, user_id := 1, method := "upi", amount_usd := some 1,
        amount_inr := none, status := "pending", oxapay_track_id := some "T7",
        razorpay_payment_id := none, auto := false }
      (by simp) (by simp [findPaymentByTrack, dbC7]) (by simp)

/-- Witness for C5: the discount bound applied at the concrete store dbC5
with quantity 2 gives 10 ≤ best, and the formula at unit 40, percent 10,
quantity 2 gives 72. -/
theorem C5_pricing_formula_and_scenario_witness :
    (10 : Int) ≤ best_discount_percent dbC5 1 2
    ∧ confirm_total 40 10 2 = 40 * (2 : ℚ) * (1 - (10 : ℚ) / 100) := by
  constructor
  · exact C5_pricing_formula_and_scenario.2.1 dbC5 1 2
      { product_id := 1, rules := [{ min_qty := 2, percent := 10 }] }
      { min_qty := 2, percent := 10 }
      (by simp [dbC5]) (by simp) (by norm_num)
  · exact C5_pricing_formula_and_scenario.1 40 10 2

/-! ### Preservation of the store invariant -/

theorem updateFirst_pointwise_strong {α : Type} (pr : α → Bool) (f : α → α)
    (P : α → Prop) (l : List α)
    (hall : ∀ a ∈ l, P a) (hf : ∀ b, l.find? pr = some b → P (f b)) :
    ∀ a ∈ updateFirst pr f l, P a := by
  intro a ha
  rcases mem_updateFirst pr f a l ha with h | ⟨b, hb1, rfl⟩
  · exact hall a h
  · exact hf b hb1

theorem map_updateFirst {α β : Type} (g : α → β) (pr : α → Bool) (f : α → α)
    (hf : ∀ a, g (f a) = g a) :
    ∀ l : List α, (updateFirst pr f l).map g = l.map g := by
  intro l
  induction l with
  | nil => rfl
  | cons c t ih =>
    by_cases hpc : pr c
    · simp [updateFirst, hpc, hf]
    · simp [updateFirst, hpc, ih]

theorem inv_users_update (db : DB) (pr : UserDoc → Bool) (f : UserDoc → UserDoc)
    (huid : ∀ u, (f u).uid = u.uid) (hflow : ∀ u, (f u).flow = u.flow) :
    Inv db → Inv { db with users := updateFirst pr f db.users } := by
  intro ⟨h1, h2, h3, h4, h5, h6, h7⟩
  refine ⟨h1, h2, h3, ?_, h5, h6, ?_⟩
  · intro u hu
    have := updateFirst_pointwise_strong pr f (FlowP db) db.users h4
      (fun b hb => by
        intro payId hfb
        have hbmem := List.mem_of_find?_eq_some hb
        have hold := h4 b hbmem payId (by rw [← hflow b]; exact hfb)
        refine ⟨hold.1, ?_⟩
        intro p hp hpid
        rw [huid b]
        exact hold.2 p hp hpid)
    exact this u hu
  · show UidsNodup _
    unfold UidsNodup
    dsimp only
    rw [map_updateFirst (fun u : UserDoc => u.uid) pr f huid]
    exact h7

theorem inv_setFlow_clear (db : DB) (uid : Nat) (fl : Option Flow)
    (hfl : ∀ payId, fl ≠ some (Flow.awaitProof payId)) :
    Inv db → Inv (setFlow db uid fl) := by
  intro ⟨h1, h2, h3, h4, h5, h6, h7⟩
  refine ⟨h1, h2, h3, ?_, h5, h6, ?_⟩
  · intro u hu
    have := updateFirst_pointwise_strong (fun x : UserDoc => x.uid == uid)
      (fun x : UserDoc => { x with flow := fl }) (FlowP db) db.users h4
      (fun b _ => by
        intro payId hfb
        exact absurd hfb (hfl payId))
    exact this u hu
  · show UidsNodup _
    unfold UidsNodup setFlow
    dsimp only
    rw [map_updateFirst (fun u : UserDoc => u.uid) (fun x : UserDoc => x.uid == uid)
      (fun x : UserDoc => { x with flow := fl }) (fun u => rfl)]
    exact h7

theorem mem_map_uid {l : List UserDoc} {uid : Nat}
    (h : uid ∈ l.map (fun u => u.uid)) : ∃ u ∈ l, u.uid = uid := by
  rcases List.mem_map.mp h with ⟨u, hu, he⟩
  exact ⟨u, hu, he⟩

theorem inv_upsert (db : DB) (uid : Nat) : Inv db → Inv (upsert_user db uid) := by
  intro hinv
  obtain ⟨h1, h2, h3, h4, h5, h6, h7⟩ := hinv
  unfold upsert_user
  by_cases hf : (findUser db uid).isSome
  · rw [if_pos hf]
    exact ⟨h1, h2, h3, h4, h5, h6, h7⟩
  · rw [if_neg hf]
    refine ⟨h1, h2, h3, ?_, h5, h6, ?_⟩
    · intro u hu payId hflw
      rcases List.mem_append.mp hu with hu1 | hu1
      · exact h4 u hu1 payId hflw
      · rw [List.mem_singleton] at hu1
        subst hu1
        simp at hflw
    · show UidsNodup _
      unfold UidsNodup
      dsimp only
      rw [List.map_append]
      rw [List.nodup_append]
      refine ⟨h7, List.nodup_singleton _, ?_⟩
      intro x hx hx2
      simp at hx2
      rcases mem_map_uid hx with ⟨u, hu, hue⟩
      have hnone : findUser db uid = none := by
        cases hfu : findUser db uid
        · rfl
        · rw [hfu] at hf; simp at hf
      have := List.find?_eq_none.mp hnone u hu
      rw [hue, hx2] at this
      simp at this

theorem inv_set_rzpState (db : DB) (s : List (Nat × String)) :
    Inv db → Inv { db with rzpState := s } := fun h => h

theorem inv_transport (db db2 : DB) (hu : db2.users = db.users)
    (hp : db2.payments = db.payments) (hn : db.nextId ≤ db2.nextId) :
    Inv db → Inv db2 := by
  intro ⟨h1, h2, h3, h4, h5, h6, h7⟩
  refine ⟨?_, ?_, ?_, ?_, ?_, ?_, ?_⟩
  · intro p hp2; rw [hp] at hp2; exact h1 p hp2
  · intro p hp2; rw [hp] at hp2; exact h2 p hp2
  · intro p hp2; rw [hp] at hp2; exact h3 p hp2
  · intro u hu2 payId hflw
    rw [hu] at hu2
    have hold := h4 u hu2 payId hflw
    refine ⟨?_, ?_⟩
    · have := hold.1; omega
    · intro p hp2 hpid
      rw [hp] at hp2
      exact hold.2 p hp2 hpid
  · intro p hp2
    rw [hp] at hp2
    have := h5 p hp2
    omega
  · unfold PidsNodup; rw [hp]; exact h6
  · unfold UidsNodup; rw [hu]; exact h7

theorem mem_updateFirst_eq_of_nodup {α β : Type} [DecidableEq β] (g : α → β) (v : β)
    (pr : α → Bool) (hpr : ∀ a, pr a = true ↔ g a = v) (f : α → α) :
    ∀ l : List α, (l.map g).Nodup → ∀ b, l.find? pr = some b →
      ∀ x ∈ updateFirst pr f l, g x = v → x = f b := by
  intro l
  induction l with
  | nil => intro _ b hb; simp [List.find?] at hb
  | cons c t ih =>
    intro hnd b hb x hx hgx
    simp only [List.map_cons, List.nodup_cons] at hnd
    by_cases hpc : pr c
    · simp [List.find?, hpc] at hb
      subst hb
      simp only [updateFirst, if_pos hpc] at hx
      rcases List.mem_cons.mp hx with h | h
      · exact h
      · exfalso
        have hgc : g c = v := (hpr c).mp hpc
        refine hnd.1 ?_
        rw [hgc, ← hgx]
        exact List.mem_map_of_mem g h
    · rw [List.find?_cons_of_neg _ hpc] at hb
      simp only [updateFirst, if_neg hpc] at hx
      rcases List.mem_cons.mp hx with h | h
      · exfalso
        subst h
        exact hpc ((hpr x).mpr hgx)
      · exact ih hnd.2 b hb x h hgx

theorem inv_payments_update (db : DB) (pr : Payment → Bool) (f : Payment → Payment)
    (hpid : ∀ p, (f p).pid = p.pid)
    (hmeth : ∀ p, (f p).method = p.method)
    (htrack : ∀ p, (f p).oxapay_track_id = p.oxapay_track_id)
    (hamt : ∀ p, (f p).amount_usd = p.amount_usd)
    (happr : ∀ b, db.payments.find? pr = some b → b.method = "razorpay" → (f b).status = "approved")
    (hsafe : ∀ b, db.payments.find? pr = some b →
      b.status ≠ "await_proof" ∨ b.oxapay_track_id ≠ none) :
    Inv db → Inv { db with payments := updateFirst pr f db.payments } := by
  intro ⟨h1, h2, h3, h4, h5, h6, h7⟩
  refine ⟨?_, ?_, ?_, ?_, ?_, ?_, h7⟩
  · intro p hp
    refine updateFirst_pointwise_strong pr f (fun x => 0 ≤ x.amount_usd.getD 0)
      db.payments h1 (fun b hb => ?_) p hp
    show 0 ≤ (f b).amount_usd.getD 0
    rw [hamt b]
    exact h1 b (List.mem_of_find?_eq_some hb)
  · intro p hp
    refine updateFirst_pointwise_strong pr f
      (fun x => x.method = "razorpay" → x.status = "approved")
      db.payments h2 (fun b hb => ?_) p hp
    show (f b).method = "razorpay" → (f b).status = "approved"
    intro hrm
    rw [hmeth b] at hrm
    exact happr b hb hrm
  · intro p hp
    refine updateFirst_pointwise_strong pr f
      (fun x => x.oxapay_track_id.isSome → x.method = "oxapay")
      db.payments h3 (fun b hb => ?_) p hp
    show (f b).oxapay_track_id.isSome → (f b).method = "oxapay"
    intro hts
    rw [htrack b] at hts
    rw [hmeth b]
    exact h3 b (List.mem_of_find?_eq_some hb) hts
  · intro u hu payId hflw
    have hold := h4 u hu payId hflw
    refine ⟨hold.1, ?_⟩
    intro p hp hppid
    rcases mem_updateFirst pr f p db.payments hp with hmem | ⟨b, hb1, rfl⟩
    · exact hold.2 p hmem hppid
    · have hbpid : b.pid = payId := by rw [← hpid b]; exact hppid
      have hbold := hold.2 b (List.mem_of_find?_eq_some hb1) hbpid
      rcases hsafe b hb1 with hc | hc
      · exact absurd hbold.2.1 hc
      · exact absurd hbold.2.2 hc
  · intro p hp
    refine updateFirst_pointwise_strong pr f (fun x => x.pid < db.nextId)
      db.payments h5 (fun b hb => ?_) p hp
    show (f b).pid < db.nextId
    rw [hpid b]
    exact h5 b (List.mem_of_find?_eq_some hb)
  · show PidsNodup _
    unfold PidsNodup
    dsimp only
    rw [map_updateFirst (fun p : Payment => p.pid) pr f hpid]
    exact h6

theorem inv_payments_insert (db : DB) (doc : Payment)
    (hdpid : doc.pid = db.nextId)
    (hdamt : 0 ≤ doc.amount_usd.getD 0)
    (hdrzp : doc.method = "razorpay" → doc.status = "approved")
    (hdtrack : doc.oxapay_track_id.isSome → doc.method = "oxapay") :
    Inv db → Inv { db with payments := db.payments ++ [doc], nextId := db.nextId + 1 } := by
  intro ⟨h1, h2, h3, h4, h5, h6, h7⟩
  refine ⟨?_, ?_, ?_, ?_, ?_, ?_, h7⟩
  · intro p hp
    rcases List.mem_append.mp hp with h | h
    · exact h1 p h
    · rw [List.mem_singleton] at h; subst h; exact hdamt
  · intro p hp
    rcases List.mem_append.mp hp with h | h
    · exact h2 p h
    · rw [List.mem_singleton] at h; subst h; exact hdrzp
  · intro p hp
    rcases List.mem_append.mp hp with h | h
    · exact h3 p h
    · rw [List.mem_singleton] at h; subst h; exact hdtrack
  · intro u hu payId hflw
    have hold := h4 u hu payId hflw
    refine ⟨?_, ?_⟩
    · show payId < db.nextId + 1
      have := hold.1
      omega
    · intro p hp hpid
      rcases List.mem_append.mp hp with h | h
      · exact hold.2 p h hpid
      · rw [List.mem_singleton] at h
        subst h
        rw [hdpid] at hpid
        have := hold.1
        omega
  · intro p hp
    show p.pid < db.nextId + 1
    rcases List.mem_append.mp hp with h | h
    · have := h5 p h; omega
    · rw [List.mem_singleton] at h; subst h; rw [hdpid]; omega
  · show PidsNodup _
    unfold PidsNodup
    dsimp only
    rw [List.map_append, List.nodup_append]
    refine ⟨h6, List.nodup_singleton _, ?_⟩
    intro x hx hx2
    simp at hx2
    rcases List.mem_map.mp hx with ⟨p, hp, hpe⟩
    have := h5 p hp
    rw [hpe, hx2, hdpid] at this
    omega

theorem inv_manual_flow (db : DB) (uid : Nat) (method : String) (n : Int)
    (hm : method ≠ "razorpay") :
    Inv db →
    Inv (setFlow { db with payments := db.payments ++ [manualDoc db uid method n], nextId := db.nextId + 1 } uid (some (Flow.awaitProof db.nextId))) := by
  intro hinv
  have hfresh : FreshIds db := hinv.2.2.2.2.1
  have hinv2 : Inv { db with payments := db.payments ++ [manualDoc db uid method n], nextId := db.nextId + 1 } :=
    inv_payments_insert db (manualDoc db uid method n) rfl (by simp [manualDoc])
      (fun h => absurd h hm) (by simp [manualDoc]) hinv
  obtain ⟨h1, h2, h3, h4, h5, h6, h7⟩ := hinv2
  refine ⟨h1, h2, h3, ?_, h5, h6, ?_⟩
  · intro u hu
    have hu2 : u ∈ updateFirst (fun x : UserDoc => x.uid == uid)
        (fun x : UserDoc => { x with flow := some (Flow.awaitProof db.nextId) }) db.users := hu
    intro payId hflw
    rcases mem_updateFirst (fun x : UserDoc => x.uid == uid)
        (fun x : UserDoc => { x with flow := some (Flow.awaitProof db.nextId) })
        u db.users hu2 with hold | ⟨b, hb1, rfl⟩
    · exact h4 u hold payId hflw
    · have hflw2 : some (Flow.awaitProof db.nextId) = some (Flow.awaitProof payId) := hflw
      have hpayId : db.nextId = payId := by
        injection hflw2 with h
        injection h
      subst hpayId
      refine ⟨Nat.lt_succ_self _, ?_⟩
      intro p hp hpid
      rcases List.mem_append.mp hp with hpo | hpn
      · have := hfresh p hpo
        omega
      · rw [List.mem_singleton] at hpn
        subst hpn
        have hbuid : b.uid = uid := by simpa using List.find?_some hb1
        refine ⟨?_, rfl, rfl⟩
        show uid = b.uid
        rw [hbuid]
  · show UidsNodup _
    unfold UidsNodup setFlow
    try dsimp only
    rw [map_updateFirst (fun u : UserDoc => u.uid) (fun x : UserDoc => x.uid == uid)
      (fun x : UserDoc => { x with flow := some (Flow.awaitProof db.nextId) }) (fun u => rfl)]
    exact h7

theorem inv_on_text_amount (db : DB) (uid : Nat) (amt : Option ℚ) (track qrId : String) :
    Inv db → Inv (on_text_amount db uid amt track qrId) := by
  intro hinv
  have hU := inv_upsert db uid hinv
  unfold on_text_amount
  try dsimp only
  cases hfu : findUser (upsert_user db uid) uid with
  | none => exact hU
  | some user =>
    try dsimp only
    by_cases hb : user.banned
    · rw [if_pos hb]
      exact hU
    · rw [if_neg hb]
      cases hfl : user.flow with
      | none => exact hU
      | some fl =>
        try dsimp only
        cases fl with
        | awaitProof payId => exact hU
        | awaitAmount method =>
          try dsimp only
          by_cases hmr : method == "razorpay"
          · rw [if_pos hmr]
            cases amt with
            | none => exact hU
            | some a =>
              try dsimp only
              by_cases hlt : a < 1
              · rw [if_pos hlt]
                exact hU
              · rw [if_neg hlt]
                exact inv_set_rzpState _ _
                  (inv_setFlow_clear _ uid none (by simp) hU)
          · rw [if_neg hmr]
            by_cases hmo : method == "oxapay"
            · rw [if_pos hmo]
              cases amt with
              | none => exact hU
              | some a =>
                try dsimp only
                by_cases hlt : a < 1/10
                · rw [if_pos hlt]
                  exact hU
                · rw [if_neg hlt]
                  refine inv_payments_insert (setFlow (upsert_user db uid) uid none)
                    (oxaDoc (setFlow (upsert_user db uid) uid none) uid a track) rfl
                    ?_ ?_ ?_ (inv_setFlow_clear _ uid none (by simp) hU)
                  · show (0 : ℚ) ≤ (some a).getD 0
                    have := not_lt.mp hlt
                    simp only [Option.getD_some]
                    linarith [this]
                  · intro h
                    simp [oxaDoc] at h
                  · intro _
                    rfl
            · rw [if_neg hmo]
              cases amt with
              | none => exact hU
              | some a =>
                try dsimp only
                by_cases hle : a ≤ 0
                · rw [if_pos hle]
                  exact hU
                · rw [if_neg hle]
                  exact inv_manual_flow (upsert_user db uid) uid method (truncToInt a)
                    (by simpa using hmr) hU

theorem inv_cb_pay_amount (db : DB) (uid : Nat) (method : String) :
    Inv db → Inv (cb_pay_amount db uid method) := by
  intro hinv
  have hU := inv_upsert db uid hinv
  unfold cb_pay_amount
  try dsimp only
  by_cases hc : ["razorpay", "oxapay", "binance", "upi"].contains method
  · rw [if_pos hc]
    exact inv_setFlow_clear _ uid (some (Flow.awaitAmount method)) (by simp) hU
  · rw [if_neg hc]
    exact hU

theorem inv_cb_qty (db : DB) (uid : Nat) (prodId qty : Nat) :
    Inv db → Inv (cb_qty db uid prodId qty) := by
  intro hinv
  have hU := inv_upsert db uid hinv
  unfold cb_qty
  try dsimp only
  exact inv_users_update (upsert_user db uid) (fun u => u.uid == uid)
    (fun u => { u with cart := some (prodId, max 1 qty) }) (fun u => rfl) (fun u => rfl) hU

theorem inv_admin_adjust (db : DB) (adminId target : Nat) (add : Bool) (amt : Option ℚ) :
    Inv db → Inv (admin_adjust_balance db adminId target add amt) := by
  intro hinv
  have hU := inv_upsert db adminId hinv
  unfold admin_adjust_balance
  try dsimp only
  by_cases ha : is_admin adminId
  · rw [if_neg (by rw [ha]; simp)]
    cases amt with
    | none => exact hU
    | some a =>
      try dsimp only
      by_cases hle : a ≤ 0
      · rw [if_pos hle]
        exact hU
      · rw [if_neg hle]
        refine inv_setFlow_clear _ adminId none (by simp) ?_
        exact inv_users_update (upsert_user db adminId) (fun u => u.uid == target)
          (fun u => { u with balance_inr := u.balance_inr + (((if add then truncToInt a else -(truncToInt a)) : Int) : ℚ) })
          (fun u => rfl) (fun u => rfl) hU
  · have ha2 : is_admin adminId = false := by
      cases h : is_admin adminId
      · rfl
      · exact absurd h ha
    rw [if_pos (by rw [ha2]; simp)]
    exact hU

theorem inv_cb_cancel_razorpay (db : DB) (uid : Nat) (qrId : String) :
    Inv db → Inv (cb_cancel_razorpay db uid qrId) := by
  intro hinv
  unfold cb_cancel_razorpay
  cases getAssoc db.rzpState uid with
  | none => exact hinv
  | some q =>
    try dsimp only
    by_cases hq : q == qrId
    · rw [if_pos hq]
      exact inv_set_rzpState _ _ hinv
    · rw [if_neg hq]
      exact hinv

theorem inv_razorpay_expire (db : DB) (uid : Nat) :
    Inv db → Inv (razorpay_expire db uid) := by
  intro hinv
  exact inv_set_rzpState _ _ hinv

theorem inv_add_stock (db : DB) (productId : Nat) (email password : String) (createdAt : Nat) :
    Inv db → Inv (add_stock db productId email password createdAt) := by
  intro hinv
  unfold add_stock
  exact inv_transport db _ rfl rfl (Nat.le_succ _) hinv

theorem inv_set_discount (db : DB) (productId : Nat) (rawRules : List (Int × Int)) :
    Inv db → Inv (set_discount_rules db productId rawRules) := by
  intro hinv
  unfold set_discount_rules
  try dsimp only
  by_cases hd : (db.discounts.find? (fun d => d.product_id == productId)).isSome
  · rw [if_pos hd]
    exact inv_transport db _ rfl rfl (le_refl _) hinv
  · rw [if_neg hd]
    exact inv_transport db _ rfl rfl (le_refl _) hinv

theorem inv_add_product (db : DB) (price_usd : ℚ) :
    Inv db → Inv (add_product db price_usd) := by
  intro hinv
  unfold add_product
  exact inv_transport db _ rfl rfl (Nat.le_succ _) hinv

theorem inv_oxapay_webhook (db : DB) (ev : OxaEvent) :
    Inv db → Inv (oxapay_webhook db ev).1 := by
  intro hinv
  unfold oxapay_webhook
  cases ev.track_id with
  | none => exact hinv
  | some track =>
    try dsimp only
    cases ev.amount with
    | none => exact hinv
    | some q =>
      try dsimp only
      by_cases hst : !(["paid", "confirming", "completed"].contains ev.status)
      · rw [if_pos hst]
        exact hinv
      · rw [if_neg hst]
        cases hfp : findPaymentByTrack db track with
        | none => exact hinv
        | some payment =>
          try dsimp only
          by_cases hm : payment.method != "oxapay"
          · rw [if_pos hm]
            exact hinv
          · rw [if_neg hm]
            by_cases hap : payment.status == "approved"
            · rw [if_pos hap]
              exact hinv
            · rw [if_neg hap]
              try dsimp only
              have hinv1 : Inv (withPayments db
                  (updateFirst (fun p => p.oxapay_track_id == some track && p.status != "approved")
                    (fun p => { p with status := "approved", auto := true }) db.payments)) := by
                refine inv_payments_update db _ _ (fun p => rfl) (fun p => rfl) (fun p => rfl)
                  (fun p => rfl) (fun b _ _ => rfl) ?_ hinv
                intro b hb
                refine Or.inr ?_
                have hcb := List.find?_some hb
                have htr : (b.oxapay_track_id == some track) = true := by
                  have hcb2 : (b.oxapay_track_id == some track && b.status != "approved") = true := hcb
                  cases hA : (b.oxapay_track_id == some track) with
                  | false => rw [hA] at hcb2; simp at hcb2
                  | true => rfl
                intro hn
                rw [hn] at htr
                simp at htr
              by_cases hmod : (db.payments.find?
                  (fun p => p.oxapay_track_id == some track && p.status != "approved")).isSome
              · rw [if_pos hmod]
                exact inv_users_update _ (fun u => u.uid == payment.user_id)
                  (fun u => { u with balance_inr := u.balance_inr + ((truncToInt ((payment.amount_usd.getD 0) * USD_TO_INR_RATE)) : ℚ) })
                  (fun u => rfl) (fun u => rfl) hinv1
              · rw [if_neg hmod]
                exact hinv1

theorem inv_cb_cancel_oxapay (db : DB) (track : String) :
    Inv db → Inv (cb_cancel_oxapay db track) := by
  intro hinv
  unfold cb_cancel_oxapay
  cases hfp : findPaymentByTrack db track with
  | none => exact hinv
  | some payment =>
    try dsimp only
    by_cases hp : payment.status == "pending"
    · rw [if_pos hp]
      refine inv_payments_update db _ _ (fun p => rfl) (fun p => rfl) (fun p => rfl)
        (fun p => rfl) ?_ ?_ hinv
      · intro b hb hrz
        have hbe : b = payment := by
          have : some payment = some b := by rw [← hfp]; exact hb.symm ▸ rfl
          exact (Option.some.inj this).symm
        exfalso
        have hbmem := List.mem_of_find?_eq_some hb
        have := hinv.2.2.1 b hbmem (by
          have hcb := List.find?_some hb
          show b.oxapay_track_id.isSome
          have : (b.oxapay_track_id == some track) = true := hcb
          cases ht : b.oxapay_track_id
          · rw [ht] at this; simp at this
          · simp [ht])
        rw [this] at hrz
        simp at hrz
      · intro b hb
        refine Or.inr ?_
        have hcb := List.find?_some hb
        have : (b.oxapay_track_id == some track) = true := hcb
        intro hn
        rw [hn] at this
        simp at this
    · rw [if_neg hp]
      exact hinv

theorem inv_oxapay_expire_ttl (db : DB) (track : String) :
    Inv db → Inv (oxapay_expire_ttl db track) := by
  intro hinv
  unfold oxapay_expire_ttl
  cases hfp : findPaymentByTrack db track with
  | none => exact hinv
  | some payment =>
    try dsimp only
    by_cases hp : payment.status == "pending"
    · rw [if_pos hp]
      refine inv_payments_update db _ _ (fun p => rfl) (fun p => rfl) (fun p => rfl)
        (fun p => rfl) ?_ ?_ hinv
      · intro b hb hrz
        exfalso
        have hbmem := List.mem_of_find?_eq_some hb
        have := hinv.2.2.1 b hbmem (by
          have hcb := List.find?_some hb
          show b.oxapay_track_id.isSome
          have : (b.oxapay_track_id == some track) = true := hcb
          cases ht : b.oxapay_track_id
          · rw [ht] at this; simp at this
          · simp [ht])
        rw [this] at hrz
        simp at hrz
      · intro b hb
        refine Or.inr ?_
        have hcb := List.find?_some hb
        have : (b.oxapay_track_id == some track) = true := hcb
        intro hn
        rw [hn] at this
        simp at this
    · rw [if_neg hp]
      exact hinv

theorem inv_cb_admin_pay (db : DB) (adminId payId : Nat) (approve : Bool) :
    Inv db → Inv (cb_admin_pay db adminId payId approve) := by
  intro hinv
  have hU := inv_upsert db adminId hinv
  unfold cb_admin_pay
  try dsimp only
  by_cases ha : is_admin adminId
  · rw [if_neg (by rw [ha]; simp)]
    cases hfp : (upsert_user db adminId).payments.find? (fun p => p.pid == payId) with
    | none => exact hU
    | some p =>
      try dsimp only
      by_cases hpend : p.status != "pending"
      · rw [if_pos hpend]
        exact hU
      · rw [if_neg hpend]
        have hpst : p.status = "pending" := by
          simpa [bne_iff_ne] using hpend
        have hbeq : ∀ b, (upsert_user db adminId).payments.find? (fun x => x.pid == payId) = some b → b = p := by
          intro b hb
          rw [hfp] at hb
          exact (Option.some.inj hb).symm
        have happr : ∀ b, (upsert_user db adminId).payments.find? (fun x => x.pid == payId) = some b →
            b.method = "razorpay" → False := by
          intro b hb hrz
          have hbe := hbeq b hb
          subst hbe
          have hbmem := List.mem_of_find?_eq_some hb
          have := hU.2.1 b hbmem hrz
          rw [hpst] at this
          simp at this
        have hsafe : ∀ b, (upsert_user db adminId).payments.find? (fun x => x.pid == payId) = some b →
            b.status ≠ "await_proof" ∨ b.oxapay_track_id ≠ none := by
          intro b hb
          have hbe := hbeq b hb
          subst hbe
          refine Or.inl ?_
          rw [hpst]
          simp
        cases approve with
        | true =>
          rw [if_pos rfl]
          refine inv_users_update _ (fun u => u.uid == p.user_id)
            (fun u => { u with balance_inr := u.balance_inr + p.amount_usd.getD 0 })
            (fun u => rfl) (fun u => rfl) ?_
          exact inv_payments_update _ _ _ (fun x => rfl) (fun x => rfl) (fun x => rfl)
            (fun x => rfl) (fun b hb _ => rfl) hsafe hU
        | false =>
          rw [if_neg (by simp)]
          refine inv_payments_update _ _ _ (fun x => rfl) (fun x => rfl) (fun x => rfl)
            (fun x => rfl) ?_ hsafe hU
          intro b hb hrz
          exact absurd hrz (fun h => happr b hb h)
  · have ha2 : is_admin adminId = false := by
      cases h : is_admin adminId
      · rfl
      · exact absurd h ha
    rw [if_pos (by rw [ha2]; simp)]
    exact hU

theorem inv_handle_payment_captured (db : DB) (ev : RzpEvent) :
    Inv db → Inv (handle_payment_captured db ev) := by
  intro hinv
  unfold handle_payment_captured
  cases ev.payment.notes_user with
  | none => exact hinv
  | some uid =>
    try dsimp only
    cases hdup : db.payments.find? (fun p => p.razorpay_payment_id == ev.payment.id) with
    | some d => exact hinv
    | none =>
      try dsimp only
      refine inv_set_rzpState _ _ ?_
      refine inv_users_update _ (fun u => u.uid == uid)
        (fun u => { u with balance_inr := u.balance_inr + ((ev.payment.amount / 100 : Nat) : ℚ) })
        (fun u => rfl) (fun u => rfl) ?_
      refine inv_payments_insert db _ rfl ?_ (fun _ => rfl) ?_ hinv
      · show (0 : ℚ) ≤ (some ((ev.payment.amount / 100 : Nat) : ℚ)).getD 0
        simp
      · intro h
        simp at h

theorem inv_razorpay_webhook (hmacF : String → String → String) (secret : Option String)
    (db : DB) (rawBody signature : String) (ev : RzpEvent) :
    Inv db → Inv (razorpay_webhook hmacF secret db rawBody signature ev).1 := by
  intro hinv
  unfold razorpay_webhook
  by_cases hsig : !(verify_webhook_signature hmacF secret rawBody signature)
  · rw [if_pos hsig]
    exact hinv
  · rw [if_neg hsig]
    by_cases he1 : ev.event == "payment.captured"
    · rw [if_pos he1]
      exact inv_handle_payment_captured db ev hinv
    · rw [if_neg he1]
      by_cases he2 : ev.event == "qr_code.credited"
      · rw [if_pos he2]
        exact inv_handle_payment_captured db ev hinv
      · rw [if_neg he2]
        exact hinv

theorem inv_photo_core (db : DB) (uid : Nat) (user : UserDoc) (payId : Nat)
    (hfu : findUser db uid = some user)
    (hfl : user.flow = some (Flow.awaitProof payId)) :
    Inv db →
    Inv (setFlow (withPayments db (updateFirst (fun p => p.pid == payId && p.user_id == uid) (fun p => { p with status := "pending" }) db.payments)) uid none) := by
  intro hinv
  obtain ⟨h1, h2, h3, h4, h5, h6, h7⟩ := hinv
  have hfuL : db.users.find? (fun x => x.uid == uid) = some user := hfu
  have husermem : user ∈ db.users := List.mem_of_find?_eq_some hfuL
  have huseruid : user.uid = uid := by simpa using List.find?_some hfuL
  have hflowP := h4 user husermem payId hfl
  have hsub : ∀ b : Payment,
      db.payments.find? (fun p => p.pid == payId && p.user_id == uid) = some b →
      b.pid = payId ∧ b ∈ db.payments := by
    intro b hb
    refine ⟨?_, List.mem_of_find?_eq_some hb⟩
    have hcb := List.find?_some hb
    have hcb2 : (b.pid == payId && b.user_id == uid) = true := hcb
    cases hA : (b.pid == payId) with
    | false => rw [hA] at hcb2; simp at hcb2
    | true => simpa using hA
  refine ⟨?_, ?_, ?_, ?_, ?_, ?_, ?_⟩
  · intro p hp
    refine updateFirst_pointwise_strong
      (fun p : Payment => p.pid == payId && p.user_id == uid)
      (fun p : Payment => { p with status := "pending" })
      (fun x => 0 ≤ x.amount_usd.getD 0)
      db.payments h1 (fun b hb => ?_) p hp
    show 0 ≤ b.amount_usd.getD 0
    exact h1 b (List.mem_of_find?_eq_some hb)
  · intro p hp
    refine updateFirst_pointwise_strong
      (fun p : Payment => p.pid == payId && p.user_id == uid)
      (fun p : Payment => { p with status := "pending" })
      (fun x => x.method = "razorpay" → x.status = "approved")
      db.payments h2 (fun b hb => ?_) p hp
    intro hrm
    exfalso
    obtain ⟨hbpid, hbmem⟩ := hsub b hb
    have happroved := h2 b hbmem hrm
    have hawait := (hflowP.2 b hbmem hbpid).2.1
    rw [happroved] at hawait
    simp at hawait
  · intro p hp
    refine updateFirst_pointwise_strong
      (fun p : Payment => p.pid == payId && p.user_id == uid)
      (fun p : Payment => { p with status := "pending" })
      (fun x => x.oxapay_track_id.isSome → x.method = "oxapay")
      db.payments h3 (fun b hb => ?_) p hp
    intro hts
    exact h3 b (List.mem_of_find?_eq_some hb) hts
  · intro u2 hu2
    have hu2L : u2 ∈ updateFirst (fun x : UserDoc => x.uid == uid)
        (fun x : UserDoc => { x with flow := none }) db.users := hu2
    intro payId2 hflw2
    rcases mem_updateFirst (fun x : UserDoc => x.uid == uid)
        (fun x : UserDoc => { x with flow := none }) u2 db.users hu2L with hold | ⟨b2, hb2, rfl⟩
    · have holdP := h4 u2 hold payId2 hflw2
      refine ⟨holdP.1, ?_⟩
      intro p hp hpid
      rcases mem_updateFirst (fun p : Payment => p.pid == payId && p.user_id == uid)
          (fun p : Payment => { p with status := "pending" }) p db.payments hp with hpo | ⟨b, hb1, rfl⟩
      · exact holdP.2 p hpo hpid
      · exfalso
        obtain ⟨hbpid, hbmem⟩ := hsub b hb1
        have hbpid2 : b.pid = payId2 := hpid
        have hown2 := (holdP.2 b hbmem hbpid2).1
        have hown1 := (hflowP.2 b hbmem hbpid).1
        have hu2uid : u2.uid = uid := by rw [← hown2, hown1, huseruid]
        have := mem_updateFirst_eq_of_nodup (fun u : UserDoc => u.uid) uid
          (fun x : UserDoc => x.uid == uid) (by intro a; simp)
          (fun x : UserDoc => { x with flow := none }) db.users h7 user hfuL
          u2 hu2L hu2uid
        rw [this] at hflw2
        simp at hflw2
    · simp at hflw2
  · intro p hp
    refine updateFirst_pointwise_strong
      (fun p : Payment => p.pid == payId && p.user_id == uid)
      (fun p : Payment => { p with status := "pending" })
      (fun x => x.pid < db.nextId)
      db.payments h5 (fun b hb => ?_) p hp
    show b.pid < db.nextId
    exact h5 b (List.mem_of_find?_eq_some hb)
  · show PidsNodup _
    unfold PidsNodup
    dsimp only [setFlow, withPayments]
    rw [map_updateFirst (fun p : Payment => p.pid)
      (fun p : Payment => p.pid == payId && p.user_id == uid)
      (fun p : Payment => { p with status := "pending" }) (fun p => rfl)]
    exact h6
  · show UidsNodup _
    unfold UidsNodup
    dsimp only [setFlow, withPayments]
    rw [map_updateFirst (fun u : UserDoc => u.uid)
      (fun x : UserDoc => x.uid == uid)
      (fun x : UserDoc => { x with flow := none }) (fun u => rfl)]
    exact h7

theorem inv_on_photo (db : DB) (uid : Nat) : Inv db → Inv (on_photo db uid) := by
  intro hinv
  have hU := inv_upsert db uid hinv
  unfold on_photo
  try dsimp only
  cases hfu : findUser (upsert_user db uid) uid with
  | none => exact hU
  | some user =>
    try dsimp only
    by_cases hb : user.banned
    · rw [if_pos hb]
      exact hU
    · rw [if_neg hb]
      cases hfl : user.flow with
      | none => exact hU
      | some fl =>
        try dsimp only
        cases fl with
        | awaitAmount m => exact hU
        | awaitProof payId =>
          exact inv_photo_core (upsert_user db uid) uid user payId hfu hfl hU

theorem inv_purchase_transaction (db : DB) (uid : Nat) (prod : Product)
    (qty : Nat) (total : ℚ) :
    Inv db → Inv (purchase_transaction db uid prod qty total).1 := by
  intro hinv
  unfold purchase_transaction purchase_body
  cases findUser db uid with
  | none => exact hinv
  | some user =>
    try dsimp only
    by_cases hb : user.banned
    · rw [if_pos hb]
      exact hinv
    · rw [if_neg hb]
      by_cases h2 : user.balance_inr < total
      · rw [if_pos h2]
        exact hinv
      · rw [if_neg h2]
        by_cases h3 : ((availStocks db prod.pid).take qty).length < qty
        · rw [if_pos h3]
          exact hinv
        · rw [if_neg h3]
          try dsimp only
          refine inv_transport { db with users := updateFirst (fun u => u.uid == uid) (fun u => { u with balance_inr := u.balance_inr - total }) db.users } _ rfl rfl (Nat.le_succ _) ?_
          exact inv_users_update db (fun u => u.uid == uid)
            (fun u => { u with balance_inr := u.balance_inr - total })
            (fun u => rfl) (fun u => rfl) hinv

theorem inv_cb_confirm (db : DB) (uid : Nat) (prodId : Nat) :
    Inv db → Inv (cb_confirm db uid prodId).1 := by
  intro hinv
  have hU := inv_upsert db uid hinv
  unfold cb_confirm
  try dsimp only
  cases hfu : findUser (upsert_user db uid) uid with
  | none => exact hU
  | some user =>
    try dsimp only
    by_cases hb : user.banned
    · rw [if_pos hb]
      exact hU
    · rw [if_neg hb]
      cases user.cart with
      | none => exact hU
      | some c =>
        try dsimp only
        by_cases hc : c.1 != prodId
        · rw [if_pos hc]
          exact hU
        · rw [if_neg hc]
          cases (upsert_user db uid).products.find? (fun p => p.pid == prodId && p.enabled) with
          | none => exact hU
          | some prod =>
            exact inv_purchase_transaction (upsert_user db uid) uid prod _ _ hU

theorem inv_step (hmacF : String → String → String) (db : DB) (op : Op) :
    Inv db → Inv (step hmacF db op) := by
  intro hinv
  cases op with
  | upsert uid => exact inv_upsert db uid hinv
  | payAmount uid method => exact inv_cb_pay_amount db uid method hinv
  | textAmount uid amt track qrId => exact inv_on_text_amount db uid amt track qrId hinv
  | photo uid => exact inv_on_photo db uid hinv
  | oxaWebhook ev => exact inv_oxapay_webhook db ev hinv
  | rzpWebhook raw sig ev =>
    exact inv_razorpay_webhook hmacF RAZORPAY_WEBHOOK_SECRET db raw sig ev hinv
  | adminPay adminId payId approve => exact inv_cb_admin_pay db adminId payId approve hinv
  | cancelOxa track => exact inv_cb_cancel_oxapay db track hinv
  | oxaExpire track => exact inv_oxapay_expire_ttl db track hinv
  | cancelRzp uid qrId => exact inv_cb_cancel_razorpay db uid qrId hinv
  | rzpExpire uid => exact inv_razorpay_expire db uid hinv
  | setQty uid prodId qty => exact inv_cb_qty db uid prodId qty hinv
  | confirm uid prodId => exact inv_cb_confirm db uid prodId hinv
  | adminAdjust adminId target add amt => exact inv_admin_adjust db adminId target add amt hinv
  | addStock productId email password createdAt =>
    exact inv_add_stock db productId email password createdAt hinv
  | setDiscount productId rawRules => exact inv_set_discount db productId rawRules hinv
  | addProduct price_usd => exact inv_add_product db price_usd hinv

theorem inv_init : Inv initDB := by
  refine ⟨?_, ?_, ?_, ?_, ?_, ?_, ?_⟩
  · intro x hx; simp [initDB] at hx
  · intro x hx; simp [initDB] at hx
  · intro x hx; simp [initDB] at hx
  · intro x hx; simp [initDB] at hx
  · intro x hx; simp [initDB] at hx
  · unfold PidsNodup initDB; simp
  · unfold UidsNodup initDB; simp

theorem inv_foldl (hmacF : String → String → String) :
    ∀ (ops : List Op) (db : DB), Inv db → Inv (ops.foldl (step hmacF) db) := by
  intro ops
  induction ops with
  | nil => intro db h; exact h
  | cons op rest ih =>
    intro db h
    exact ih (step hmacF db op) (inv_step hmacF db op h)

theorem inv_run (hmacF : String → String → String) (ops : List Op) :
    Inv (run hmacF ops) :=
  inv_foldl hmacF ops initDB inv_init

/-! ### Payments-effect lemmas -/

theorem payments_upsert_user (db : DB) (uid : Nat) :
    (upsert_user db uid).payments = db.payments := by
  unfold upsert_user
  split <;> rfl

theorem payments_setFlow (db : DB) (uid : Nat) (f : Option Flow) :
    (setFlow db uid f).payments = db.payments := rfl

theorem payments_incBalance (db : DB) (uid : Nat) (a : ℚ) :
    (incBalance db uid a).payments = db.payments := rfl

theorem nextId_upsert_user (db : DB) (uid : Nat) :
    (upsert_user db uid).nextId = db.nextId := by
  unfold upsert_user
  split <;> rfl

theorem payments_cb_pay_amount (db : DB) (uid : Nat) (m : String) :
    (cb_pay_amount db uid m).payments = db.payments := by
  unfold cb_pay_amount
  try dsimp only
  split
  · rw [payments_setFlow, payments_upsert_user]
  · exact payments_upsert_user db uid

theorem payments_cb_qty (db : DB) (uid prodId qty : Nat) :
    (cb_qty db uid prodId qty).payments = db.payments :=
  payments_upsert_user db uid

theorem payments_cb_cancel_razorpay (db : DB) (uid : Nat) (qrId : String) :
    (cb_cancel_razorpay db uid qrId).payments = db.payments := by
  unfold cb_cancel_razorpay
  cases h : getAssoc db.rzpState uid with
  | none => rfl
  | some q =>
    try dsimp only
    split <;> rfl

theorem payments_razorpay_expire (db : DB) (uid : Nat) :
    (razorpay_expire db uid).payments = db.payments := rfl

theorem payments_add_stock (db : DB) (pid : Nat) (e pw : String) (c : Nat) :
    (add_stock db pid e pw c).payments = db.payments := rfl

theorem payments_set_discount (db : DB) (pid : Nat) (rr : List (Int × Int)) :
    (set_discount_rules db pid rr).payments = db.payments := by
  unfold set_discount_rules
  try dsimp only
  split <;> rfl

theorem payments_add_product (db : DB) (pr : ℚ) :
    (add_product db pr).payments = db.payments := rfl

theorem payments_admin_adjust (db : DB) (a t : Nat) (add : Bool) (amt : Option ℚ) :
    (admin_adjust_balance db a t add amt).payments = db.payments := by
  unfold admin_adjust_balance
  try dsimp only
  split
  · exact payments_upsert_user db a
  · cases amt with
    | none => exact payments_upsert_user db a
    | some q =>
      try dsimp only
      split
      · exact payments_upsert_user db a
      · rw [payments_setFlow, payments_incBalance, payments_upsert_user]

theorem payments_purchase_body (db : DB) (u : Nat) (prod : Product) (q : Nat) (t : ℚ) :
    (purchase_body db u prod q t).1.payments = db.payments := by
  unfold purchase_body
  cases hfu : findUser db u with
  | none => rfl
  | some user =>
    try dsimp only
    split
    · rfl
    · split
      · rfl
      · split
        · rfl
        · rfl

theorem payments_purchase_transaction (db : DB) (u : Nat) (prod : Product) (q : Nat) (t : ℚ) :
    (purchase_transaction db u prod q t).1.payments = db.payments := by
  have hbody := payments_purchase_body db u prod q t
  unfold purchase_transaction
  cases hb : purchase_body db u prod q t with
  | mk db1 r =>
    rw [hb] at hbody
    cases r with
    | error e => rfl
    | ok v => exact hbody

theorem payments_cb_confirm (db : DB) (uid prodId : Nat) :
    (cb_confirm db uid prodId).1.payments = db.payments := by
  unfold cb_confirm
  try dsimp only
  cases hfu : findUser (upsert_user db uid) uid with
  | none => exact payments_upsert_user db uid
  | some user =>
    try dsimp only
    by_cases hb : user.banned
    · rw [if_pos hb]
      exact payments_upsert_user db uid
    · rw [if_neg hb]
      cases user.cart with
      | none => exact payments_upsert_user db uid
      | some c =>
        try dsimp only
        by_cases hc : c.1 != prodId
        · rw [if_pos hc]
          exact payments_upsert_user db uid
        · rw [if_neg hc]
          cases (upsert_user db uid).products.find? (fun p => p.pid == prodId && p.enabled) with
          | none => exact payments_upsert_user db uid
          | some prod =>
            rw [payments_purchase_transaction]
            exact payments_upsert_user db uid

/-! ### Stability of approved payments under every operation -/

theorem approvedAt_payments_eq (db db2 : DB) (pid : Nat)
    (h : db2.payments = db.payments) :
    ApprovedAt db pid → ApprovedAt db2 pid := by
  intro ⟨hmem, hall⟩
  constructor
  · rw [h]; exact hmem
  · intro p hp hpid
    rw [h] at hp
    exact hall p hp hpid

theorem approvedAt_insert (db db2 : DB) (pid : Nat) (d : Payment)
    (hd : d.pid ≠ pid)
    (hp : db2.payments = db.payments ++ [d]) :
    ApprovedAt db pid → ApprovedAt db2 pid := by
  intro ⟨hmem, hall⟩
  constructor
  · rw [hp, List.map_append]
    exact List.mem_append_left _ hmem
  · intro p hpm hpid
    rw [hp] at hpm
    rcases List.mem_append.mp hpm with h1 | h1
    · exact hall p h1 hpid
    · rw [List.mem_singleton.mp h1] at hpid
      exact absurd hpid hd

theorem approvedAt_update (db db2 : DB) (pid : Nat) (pr : Payment → Bool)
    (f : Payment → Payment)
    (hf : ∀ p, (f p).pid = p.pid)
    (hp : db2.payments = updateFirst pr f db.payments)
    (hTerm : ∀ b, db.payments.find? pr = some b → b.pid = pid →
      (f b).status = "approved") :
    ApprovedAt db pid → ApprovedAt db2 pid := by
  intro ⟨hmem, hall⟩
  constructor
  · rw [hp, map_updateFirst (fun p : Payment => p.pid) pr f hf]
    exact hmem
  · intro p hpm hpid
    rw [hp] at hpm
    rcases mem_updateFirst pr f p db.payments hpm with h1 | ⟨b, hb, rfl⟩
    · exact hall p h1 hpid
    · exact hTerm b hb (by rw [← hf b]; exact hpid)

theorem approvedAt_pid_lt (db : DB) (pid : Nat) (hinv : Inv db) :
    ApprovedAt db pid → pid < db.nextId := by
  intro ⟨hmem, _⟩
  obtain ⟨p, hp, hpid⟩ := List.mem_map.mp hmem
  rw [← hpid]
  exact hinv.2.2.2.2.1 p hp

theorem appr_on_text_amount (db : DB) (uid : Nat) (amt : Option ℚ) (track qrId : String)
    (pid : Nat) (hinv : Inv db) (h : ApprovedAt db pid) :
    ApprovedAt (on_text_amount db uid amt track qrId) pid := by
  have hU : ApprovedAt (upsert_user db uid) pid :=
    approvedAt_payments_eq db _ pid (payments_upsert_user db uid) h
  have hlt : pid < db.nextId := approvedAt_pid_lt db pid hinv h
  unfold on_text_amount
  try dsimp only
  cases hfu : findUser (upsert_user db uid) uid with
  | none => exact hU
  | some user =>
    try dsimp only
    by_cases hb : user.banned
    · rw [if_pos hb]
      exact hU
    · rw [if_neg hb]
      cases hfl : user.flow with
      | none => exact hU
      | some fl =>
        try dsimp only
        cases fl with
        | awaitProof payId => exact hU
        | awaitAmount method =>
          try dsimp only
          by_cases hmr : method == "razorpay"
          · rw [if_pos hmr]
            cases amt with
            | none => exact hU
            | some a =>
              try dsimp only
              by_cases hltq : a < 1
              · rw [if_pos hltq]
                exact hU
              · rw [if_neg hltq]
                refine approvedAt_payments_eq db _ pid ?_ h
                show (setFlow (upsert_user db uid) uid none).payments = db.payments
                rw [payments_setFlow, payments_upsert_user]
          · rw [if_neg hmr]
            by_cases hmo : method == "oxapay"
            · rw [if_pos hmo]
              cases amt with
              | none => exact hU
              | some a =>
                try dsimp only
                by_cases hltq : a < 1/10
                · rw [if_pos hltq]
                  exact hU
                · rw [if_neg hltq]
                  refine approvedAt_insert db _ pid
                    (oxaDoc (setFlow (upsert_user db uid) uid none) uid a track) ?_ ?_ h
                  · show (upsert_user db uid).nextId ≠ pid
                    rw [nextId_upsert_user]
                    omega
                  · show (setFlow (upsert_user db uid) uid none).payments
                        ++ [oxaDoc (setFlow (upsert_user db uid) uid none) uid a track]
                      = db.payments
                        ++ [oxaDoc (setFlow (upsert_user db uid) uid none) uid a track]
                    rw [payments_setFlow, payments_upsert_user]
            · rw [if_neg hmo]
              cases amt with
              | none => exact hU
              | some a =>
                try dsimp only
                by_cases hle : a ≤ 0
                · rw [if_pos hle]
                  exact hU
                · rw [if_neg hle]
                  refine approvedAt_insert db _ pid
                    (manualDoc (upsert_user db uid) uid method (truncToInt a)) ?_ ?_ h
                  · show (upsert_user db uid).nextId ≠ pid
                    rw [nextId_upsert_user]
                    omega
                  · show (upsert_user db uid).payments
                        ++ [manualDoc (upsert_user db uid) uid method (truncToInt a)]
                      = db.payments
                        ++ [manualDoc (upsert_user db uid) uid method (truncToInt a)]
                    rw [payments_upsert_user]

theorem appr_on_photo (db : DB) (uid : Nat) (pid : Nat)
    (hinv : Inv db) (h : ApprovedAt db pid) :
    ApprovedAt (on_photo db uid) pid := by
  have hU : ApprovedAt (upsert_user db uid) pid :=
    approvedAt_payments_eq db _ pid (payments_upsert_user db uid) h
  have hIU : Inv (upsert_user db uid) := inv_upsert db uid hinv
  unfold on_photo
  try dsimp only
  cases hfu : findUser (upsert_user db uid) uid with
  | none => exact hU
  | some user =>
    try dsimp only
    by_cases hb : user.banned
    · rw [if_pos hb]
      exact hU
    · rw [if_neg hb]
      cases hfl : user.flow with
      | none => exact hU
      | some fl =>
        try dsimp only
        cases fl with
        | awaitAmount method => exact hU
        | awaitProof payId =>
          try dsimp only
          refine approvedAt_update (upsert_user db uid) _ pid
            (fun p => p.pid == payId && p.user_id == uid)
            (fun p => { p with status := "pending" })
            (fun p => rfl) rfl ?_ hU
          intro b hbfind hbpid
          exfalso
          have husermem : user ∈ (upsert_user db uid).users :=
            List.mem_of_find?_eq_some hfu
          have hflowP := hIU.2.2.2.1 user husermem payId hfl
          have hbmem : b ∈ (upsert_user db uid).payments :=
            List.mem_of_find?_eq_some hbfind
          have hcb := List.find?_some hbfind
          have hcb2 : (b.pid == payId && b.user_id == uid) = true := hcb
          have hbpay : b.pid = payId := by
            cases hA : (b.pid == payId) with
            | false => rw [hA] at hcb2; simp at hcb2
            | true => simpa using hA
          have hawait := (hflowP.2 b hbmem hbpay).2.1
          have happr := (approvedAt_payments_eq db _ pid (payments_upsert_user db uid) h).2
            b hbmem hbpid
          rw [happr] at hawait
          simp at hawait

theorem appr_oxapay_webhook (db : DB) (ev : OxaEvent) (pid : Nat)
    (h : ApprovedAt db pid) :
    ApprovedAt (oxapay_webhook db ev).1 pid := by
  unfold oxapay_webhook
  cases ev.track_id with
  | none => exact h
  | some track =>
    try dsimp only
    cases ev.amount with
    | none => exact h
    | some q =>
      try dsimp only
      by_cases hst : !(["paid", "confirming", "completed"].contains ev.status)
      · rw [if_pos hst]
        exact h
      · rw [if_neg hst]
        cases hfp : findPaymentByTrack db track with
        | none => exact h
        | some payment =>
          try dsimp only
          by_cases hm : payment.method != "oxapay"
          · rw [if_pos hm]
            exact h
          · rw [if_neg hm]
            by_cases hap : payment.status == "approved"
            · rw [if_pos hap]
              exact h
            · rw [if_neg hap]
              try dsimp only
              have h1 : ApprovedAt (withPayments db
                  (updateFirst (fun p => p.oxapay_track_id == some track && p.status != "approved")
                    (fun p => { p with status := "approved", auto := true }) db.payments)) pid :=
                approvedAt_update db _ pid
                  (fun p => p.oxapay_track_id == some track && p.status != "approved")
                  (fun p => { p with status := "approved", auto := true })
                  (fun p => rfl) rfl (fun b _ _ => rfl) h
              by_cases hmod : (db.payments.find?
                  (fun p => p.oxapay_track_id == some track && p.status != "approved")).isSome
              · rw [if_pos hmod]
                exact approvedAt_payments_eq _ _ pid (payments_incBalance _ _ _) h1
              · rw [if_neg hmod]
                exact h1

theorem appr_cb_cancel_oxapay (db : DB) (track : String) (pid : Nat)
    (h : ApprovedAt db pid) :
    ApprovedAt (cb_cancel_oxapay db track) pid := by
  unfold cb_cancel_oxapay
  cases hfp : findPaymentByTrack db track with
  | none => exact h
  | some payment =>
    try dsimp only
    by_cases hp : payment.status == "pending"
    · rw [if_pos hp]
      refine approvedAt_update db _ pid (fun p => p.oxapay_track_id == some track)
        (fun p => { p with status := "cancelled" }) (fun p => rfl) rfl ?_ h
      intro b hb hbpid
      exfalso
      have hbe : b = payment := by
        have : findPaymentByTrack db track = some b := hb
        rw [hfp] at this
        exact (Option.some.inj this).symm
      have hbmem := List.mem_of_find?_eq_some hb
      have happr := h.2 b hbmem hbpid
      rw [← hbe, happr] at hp
      simp at hp
    · rw [if_neg hp]
      exact h

theorem appr_oxapay_expire_ttl (db : DB) (track : String) (pid : Nat)
    (h : ApprovedAt db pid) :
    ApprovedAt (oxapay_expire_ttl db track) pid := by
  unfold oxapay_expire_ttl
  cases hfp : findPaymentByTrack db track with
  | none => exact h
  | some payment =>
    try dsimp only
    by_cases hp : payment.status == "pending"
    · rw [if_pos hp]
      refine approvedAt_update db _ pid (fun p => p.oxapay_track_id == some track)
        (fun p => { p with status := "expired" }) (fun p => rfl) rfl ?_ h
      intro b hb hbpid
      exfalso
      have hbe : b = payment := by
        have : findPaymentByTrack db track = some b := hb
        rw [hfp] at this
        exact (Option.some.inj this).symm
      have hbmem := List.mem_of_find?_eq_some hb
      have happr := h.2 b hbmem hbpid
      rw [← hbe, happr] at hp
      simp at hp
    · rw [if_neg hp]
      exact h

theorem appr_cb_admin_pay (db : DB) (adminId payId : Nat) (approve : Bool) (pid : Nat)
    (h : ApprovedAt db pid) :
    ApprovedAt (cb_admin_pay db adminId payId approve) pid := by
  have hU : ApprovedAt (upsert_user db adminId) pid :=
    approvedAt_payments_eq db _ pid (payments_upsert_user db adminId) h
  unfold cb_admin_pay
  try dsimp only
  by_cases ha : is_admin adminId
  · rw [if_neg (by rw [ha]; simp)]
    cases hfp : (upsert_user db adminId).payments.find? (fun p => p.pid == payId) with
    | none => exact hU
    | some p =>
      try dsimp only
      by_cases hpend : p.status != "pending"
      · rw [if_pos hpend]
        exact hU
      · rw [if_neg hpend]
        have hpst : p.status = "pending" := by
          simpa [bne_iff_ne] using hpend
        have hTerm : ∀ g : Payment → Payment, (∀ b, (g b).status = "approved" ∨ g b = { b with status := "rejected" }) →
            ∀ b, (upsert_user db adminId).payments.find? (fun q => q.pid == payId) = some b →
            b.pid = pid → (g b).status = "approved" := by
          intro g hg b hb hbpid
          have hbe : b = p := by
            rw [hfp] at hb
            exact (Option.some.inj hb).symm
          have hbmem := List.mem_of_find?_eq_some hb
          have happr := hU.2 b hbmem hbpid
          rw [hbe, hpst] at happr
          simp at happr
        cases approve with
        | true =>
          rw [if_pos rfl]
          refine approvedAt_payments_eq _ _ pid (payments_incBalance _ _ _) ?_
          exact approvedAt_update (upsert_user db adminId) _ pid
            (fun q => q.pid == payId) (fun q => { q with status := "approved" })
            (fun q => rfl) rfl (fun b hb _ => rfl) hU
        | false =>
          rw [if_neg (by simp)]
          exact approvedAt_update (upsert_user db adminId) _ pid
            (fun q => q.pid == payId) (fun q => { q with status := "rejected" })
            (fun q => rfl) rfl
            (hTerm (fun q => { q with status := "rejected" }) (fun b => Or.inr rfl)) hU
  · have ha2 : is_admin adminId = false := by
      cases hq : is_admin adminId
      · rfl
      · exact absurd hq ha
    rw [if_pos (by rw [ha2]; simp)]
    exact hU

theorem appr_handle_payment_captured (db : DB) (ev : RzpEvent) (pid : Nat)
    (hinv : Inv db) (h : ApprovedAt db pid) :
    ApprovedAt (handle_payment_captured db ev) pid := by
  have hlt : pid < db.nextId := approvedAt_pid_lt db pid hinv h
  unfold handle_payment_captured
  try dsimp only
  cases ev.payment.notes_user with
  | none => exact h
  | some user_id =>
    try dsimp only
    cases hdup : db.payments.find? (fun p => p.razorpay_payment_id == ev.payment.id) with
    | some d => exact h
    | none =>
      try dsimp only
      refine approvedAt_insert db _ pid _ ?_ rfl h
      show db.nextId ≠ pid
      omega

theorem appr_razorpay_webhook (hmacF : String → String → String) (secret : Option String)
    (db : DB) (raw sig : String) (ev : RzpEvent) (pid : Nat)
    (hinv : Inv db) (h : ApprovedAt db pid) :
    ApprovedAt (razorpay_webhook hmacF secret db raw sig ev).1 pid := by
  unfold razorpay_webhook
  by_cases hv : !(verify_webhook_signature hmacF secret raw sig)
  · rw [if_pos hv]
    exact h
  · rw [if_neg hv]
    by_cases he : ev.event == "payment.captured"
    · rw [if_pos he]
      exact appr_handle_payment_captured db ev pid hinv h
    · rw [if_neg he]
      by_cases hq : ev.event == "qr_code.credited"
      · rw [if_pos hq]
        exact appr_handle_payment_captured db ev pid hinv h
      · rw [if_neg hq]
        exact h

theorem approved_stable (hmacF : String → String → String) (db : DB) (op : Op) (pid : Nat)
    (hinv : Inv db) (h : ApprovedAt db pid) :
    ApprovedAt (step hmacF db op) pid := by
  cases op with
  | upsert uid =>
    exact approvedAt_payments_eq db _ pid (payments_upsert_user db uid) h
  | payAmount uid method =>
    exact approvedAt_payments_eq db _ pid (payments_cb_pay_amount db uid method) h
  | textAmount uid amt track qrId =>
    exact appr_on_text_amount db uid amt track qrId pid hinv h
  | photo uid => exact appr_on_photo db uid pid hinv h
  | oxaWebhook ev => exact appr_oxapay_webhook db ev pid h
  | rzpWebhook raw sig ev =>
    exact appr_razorpay_webhook hmacF RAZORPAY_WEBHOOK_SECRET db raw sig ev pid hinv h
  | adminPay adminId payId approve =>
    exact appr_cb_admin_pay db adminId payId approve pid h
  | cancelOxa track => exact appr_cb_cancel_oxapay db track pid h
  | oxaExpire track => exact appr_oxapay_expire_ttl db track pid h
  | cancelRzp uid qrId =>
    exact approvedAt_payments_eq db _ pid (payments_cb_cancel_razorpay db uid qrId) h
  | rzpExpire uid =>
    exact approvedAt_payments_eq db _ pid (payments_razorpay_expire db uid) h
  | setQty uid prodId qty =>
    exact approvedAt_payments_eq db _ pid (payments_cb_qty db uid prodId qty) h
  | confirm uid prodId =>
    exact approvedAt_payments_eq db _ pid (payments_cb_confirm db uid prodId) h
  | adminAdjust adminId target add amt =>
    exact approvedAt_payments_eq db _ pid (payments_admin_adjust db adminId target add amt) h
  | addStock productId email password createdAt =>
    exact approvedAt_payments_eq db _ pid (payments_add_stock db productId email password createdAt) h
  | setDiscount productId rawRules =>
    exact approvedAt_payments_eq db _ pid (payments_set_discount db productId rawRules) h
  | addProduct price_usd =>
    exact approvedAt_payments_eq db _ pid (payments_add_product db price_usd) h

theorem approved_foldl (hmacF : String → String → String) :
    ∀ (more : List Op) (db : DB) (pid : Nat), Inv db → ApprovedAt db pid →
      ApprovedAt (more.foldl (step hmacF) db) pid := by
  intro more
  induction more with
  | nil => intro db pid _ h; exact h
  | cons op rest ih =>
    intro db pid hinv h
    exact ih (step hmacF db op) pid (inv_step hmacF db op hinv)
      (approved_stable hmacF db op pid hinv h)

/-! ### Claim C10: razorpay payment documents are always approved -/

/-- Claim C10: in every reachable store state, every payment document
whose method is razorpay has status approved — razorpay documents are
inserted approved by the webhook handler and no operation ever rewrites
a razorpay document's status. -/
theorem C10_razorpay_always_approved (hmacF : String → String → String)
    (ops : List Op) (p : Payment)
    (hp : p ∈ (run hmacF ops).payments)
    (hm : p.method = "razorpay") : p.status = "approved" :=
  (inv_run hmacF ops).2.1 p hp hm

theorem C10_razorpay_always_approved_witness :
    pC10 ∈ (run hmacW opsC10).payments ∧ pC10.method = "razorpay"
      ∧ pC10.status = "approved" := by
  have hrun : run hmacW opsC10 = rzpAfter (upsert_user initDB 1) "PAY9" 5000 1 := by
    show (razorpay_webhook hmacW RAZORPAY_WEBHOOK_SECRET (upsert_user initDB 1)
        "body" "change-me/body" evR1).1
      = rzpAfter (upsert_user initDB 1) "PAY9" 5000 1
    unfold razorpay_webhook
    rw [if_neg (by simp [verify_webhook_signature, RAZORPAY_WEBHOOK_SECRET, hmacW])]
    rw [if_pos (by simp [evR1, evRz])]
    dsimp only
    exact rzp_apply_fresh (upsert_user initDB 1) "PAY9" 5000 1 rfl
  have hmem : pC10 ∈ (run hmacW opsC10).payments := by
    rw [hrun]
    show pC10 ∈ (upsert_user initDB 1).payments ++ [pC10]
    exact List.mem_append_right _ (List.mem_singleton.mpr rfl)
  exact ⟨hmem, rfl, C10_razorpay_always_approved hmacW opsC10 pC10 hmem rfl⟩

/-! ### Claim C6: finality of terminal payment statuses -/

theorem on_text_amount_oxapay (db : DB) (uid : Nat) (a : ℚ) (track qrId : String)
    (user : UserDoc)
    (hfu : findUser (upsert_user db uid) uid = some user)
    (hb : user.banned = false)
    (hfl : user.flow = some (.awaitAmount "oxapay"))
    (hge : ¬(a < 1/10)) :
    on_text_amount db uid (some a) track qrId
      = { setFlow (upsert_user db uid) uid none with
          payments := (setFlow (upsert_user db uid) uid none).payments
            ++ [oxaDoc (setFlow (upsert_user db uid) uid none) uid a track]
          nextId := (setFlow (upsert_user db uid) uid none).nextId + 1 } := by
  unfold on_text_amount
  try dsimp only
  rw [hfu]
  try dsimp only
  rw [if_neg (by rw [hb]; simp)]
  rw [hfl]
  try dsimp only
  rw [if_neg (by simp), if_pos (by simp)]
  try dsimp only
  rw [if_neg hge]

theorem C6_cancelled_store :
    List.foldl (step hmacW) initDB (opsC6.take 4) = dbC6 := by
  have e3 : on_text_amount dbC6b 1 (some 5) "T1" "" = dbC6c := by
    rw [on_text_amount_oxapay dbC6b 1 5 "T1" "" _ rfl rfl rfl (by norm_num)]
    rfl
  show cb_cancel_oxapay (on_text_amount (cb_pay_amount (upsert_user initDB 1) 1 "oxapay") 1 (some 5) "T1" "") "T1" = dbC6
  have e2 : cb_pay_amount (upsert_user initDB 1) 1 "oxapay" = dbC6b := rfl
  rw [e2, e3]
  rfl

/-- Claim C6 counterexample: the C6 operations create an oxapay payment,
cancel it — a terminal status — and then deliver a valid settlement
webhook; the conditional update filter only excludes approved documents,
so the cancelled payment is re-approved and the wallet is credited. -/
theorem C6_counterexample :
    statusByTrack (List.foldl (step hmacW) initDB (opsC6.take 4)) "T1" = some "cancelled"
    ∧ statusByTrack (run hmacW opsC6) "T1" = some "approved"
    ∧ balanceOf (run hmacW opsC6) 1 = some 450 := by
  have hrun : run hmacW opsC6
      = (oxapay_webhook (List.foldl (step hmacW) initDB (opsC6.take 4)) evC6).1 := rfl
  rw [C6_cancelled_store] at hrun
  refine ⟨?_, ?_, ?_⟩
  · rw [C6_cancelled_store]
    rfl
  · rw [hrun]
    rfl
  · rw [hrun]
    have hv : balanceOf ((oxapay_webhook dbC6 evC6).1) 1
        = some ((0:ℚ) + ((truncToInt ((5:ℚ) * USD_TO_INR_RATE)) : ℚ)) := rfl
    rw [hv]
    have hval : (0:ℚ) + ((truncToInt ((5:ℚ) * USD_TO_INR_RATE)) : ℚ) = 450 := by
      norm_num [truncToInt, USD_TO_INR_RATE]
    rw [hval]

/-- Claim C6 (amended): approved is final — a payment document once
approved in a reachable store stays approved under every further
operation sequence.  The other terminal statuses are not final: a
cancelled or expired oxapay payment is re-approved by a later settlement
delivery, because the webhook's conditional filter only excludes
approved documents. -/
theorem C6_approved_final (hmacF : String → String → String)
    (ops more : List Op) (pid : Nat)
    (h : ∃ p ∈ (run hmacF ops).payments, p.pid = pid ∧ p.status = "approved") :
    ∃ p ∈ (run hmacF (ops ++ more)).payments, p.pid = pid ∧ p.status = "approved" := by
  have hinv := inv_run hmacF ops
  have hnd : ((run hmacF ops).payments.map (fun p => p.pid)).Nodup := hinv.2.2.2.2.2.1
  have hA : ApprovedAt (run hmacF ops) pid := by
    obtain ⟨q, hq, hqpid, hqst⟩ := h
    constructor
    · exact List.mem_map.mpr ⟨q, hq, hqpid⟩
    · intro p hp hppid
      have := nodup_map_pid_eq (fun p : Payment => p.pid) (run hmacF ops).payments hnd
        p hp q hq (by show p.pid = q.pid; rw [hppid, hqpid])
      rw [this]
      exact hqst
  have hrun : run hmacF (ops ++ more) = more.foldl (step hmacF) (run hmacF ops) := by
    unfold run
    rw [List.foldl_append]
  rw [hrun]
  obtain ⟨hmem, hall⟩ := approved_foldl hmacF more (run hmacF ops) pid hinv hA
  obtain ⟨p, hp, hppid⟩ := List.mem_map.mp hmem
  exact ⟨p, hp, hppid, hall p hp hppid⟩

theorem C6_approved_final_witness :
    (∃ p ∈ (run hmacW opsC10).payments, p.pid = 0 ∧ p.status = "approved")
    ∧ ∃ p ∈ (run hmacW (opsC10 ++ opsC6W)).payments, p.pid = 0 ∧ p.status = "approved" := by
  have hrun : run hmacW opsC10 = rzpAfter (upsert_user initDB 1) "PAY9" 5000 1 := by
    show (razorpay_webhook hmacW RAZORPAY_WEBHOOK_SECRET (upsert_user initDB 1)
        "body" "change-me/body" evR1).1
      = rzpAfter (upsert_user initDB 1) "PAY9" 5000 1
    unfold razorpay_webhook
    rw [if_neg (by simp [verify_webhook_signature, RAZORPAY_WEBHOOK_SECRET, hmacW])]
    rw [if_pos (by simp [evR1, evRz])]
    dsimp only
    exact rzp_apply_fresh (upsert_user initDB 1) "PAY9" 5000 1 rfl
  have hmem : pC10 ∈ (run hmacW opsC10).payments := by
    rw [hrun]
    show pC10 ∈ (upsert_user initDB 1).payments ++ [pC10]
    exact List.mem_append_right _ (List.mem_singleton.mpr rfl)
  have hh : ∃ p ∈ (run hmacW opsC10).payments, p.pid = 0 ∧ p.status = "approved" :=
    ⟨pC10, hmem, rfl, rfl⟩
  exact ⟨hh, C6_approved_final hmacW opsC10 opsC6W 0 hh⟩

/-! ### Claim C3: balance nonnegativity -/

theorem truncToInt_nonneg (q : ℚ) (hq : 0 ≤ q) : 0 ≤ truncToInt q := by
  unfold truncToInt
  rw [if_neg (not_lt.mpr hq)]
  exact Int.floor_nonneg.mpr hq

theorem balNonneg_users_eq (db db2 : DB) (h : db2.users = db.users) :
    BalNonneg db → BalNonneg db2 := by
  intro hb u hu
  rw [h] at hu
  exact hb u hu

theorem balNonneg_append (db db2 : DB) (d : UserDoc)
    (h : db2.users = db.users ++ [d]) (hd : 0 ≤ d.balance_inr) :
    BalNonneg db → BalNonneg db2 := by
  intro hb u hu
  rw [h] at hu
  rcases List.mem_append.mp hu with h1 | h1
  · exact hb u h1
  · rw [List.mem_singleton.mp h1]
    exact hd

theorem balNonneg_update (db db2 : DB) (pr : UserDoc → Bool) (f : UserDoc → UserDoc)
    (h : db2.users = updateFirst pr f db.users)
    (hf : ∀ b, db.users.find? pr = some b → 0 ≤ b.balance_inr → 0 ≤ (f b).balance_inr) :
    BalNonneg db → BalNonneg db2 := by
  intro hb u hu
  rw [h] at hu
  rcases mem_updateFirst pr f u db.users hu with h1 | ⟨b, hb1, rfl⟩
  · exact hb u h1
  · exact hf b hb1 (hb b (List.mem_of_find?_eq_some hb1))

theorem bal_upsert (db : DB) (uid : Nat) :
    BalNonneg db → BalNonneg (upsert_user db uid) := by
  intro hb
  unfold upsert_user
  split
  · exact hb
  · exact balNonneg_append db _
      { uid := uid, balance_inr := 0, banned := false, flow := none, cart := none }
      rfl (le_refl 0) hb

theorem bal_setFlow (db : DB) (uid : Nat) (f : Option Flow) :
    BalNonneg db → BalNonneg (setFlow db uid f) :=
  balNonneg_update db _ (fun u => u.uid == uid) (fun u => { u with flow := f }) rfl
    (fun _ _ h => h)

theorem bal_incBalance (db : DB) (uid : Nat) (c : ℚ) (hc : 0 ≤ c) :
    BalNonneg db → BalNonneg (incBalance db uid c) :=
  balNonneg_update db _ (fun u => u.uid == uid)
    (fun u => { u with balance_inr := u.balance_inr + c }) rfl
    (fun b _ h => by show 0 ≤ b.balance_inr + c; linarith)

theorem bal_cb_pay_amount (db : DB) (uid : Nat) (m : String) :
    BalNonneg db → BalNonneg (cb_pay_amount db uid m) := by
  intro hb
  unfold cb_pay_amount
  try dsimp only
  split
  · exact bal_setFlow _ uid _ (bal_upsert db uid hb)
  · exact bal_upsert db uid hb

theorem bal_on_text_amount (db : DB) (uid : Nat) (amt : Option ℚ) (track qrId : String) :
    BalNonneg db → BalNonneg (on_text_amount db uid amt track qrId) := by
  intro hb
  have hU := bal_upsert db uid hb
  unfold on_text_amount
  try dsimp only
  cases hfu : findUser (upsert_user db uid) uid with
  | none => exact hU
  | some user =>
    try dsimp only
    by_cases hban : user.banned
    · rw [if_pos hban]
      exact hU
    · rw [if_neg hban]
      cases hfl : user.flow with
      | none => exact hU
      | some fl =>
        try dsimp only
        cases fl with
        | awaitProof payId => exact hU
        | awaitAmount method =>
          try dsimp only
          by_cases hmr : method == "razorpay"
          · rw [if_pos hmr]
            cases amt with
            | none => exact hU
            | some a =>
              try dsimp only
              by_cases hltq : a < 1
              · rw [if_pos hltq]
                exact hU
              · rw [if_neg hltq]
                exact balNonneg_users_eq _ _ rfl (bal_setFlow _ uid none hU)
          · rw [if_neg hmr]
            by_cases hmo : method == "oxapay"
            · rw [if_pos hmo]
              cases amt with
              | none => exact hU
              | some a =>
                try dsimp only
                by_cases hltq : a < 1/10
                · rw [if_pos hltq]
                  exact hU
                · rw [if_neg hltq]
                  exact balNonneg_users_eq _ _ rfl (bal_setFlow _ uid none hU)
            · rw [if_neg hmo]
              cases amt with
              | none => exact hU
              | some a =>
                try dsimp only
                by_cases hle : a ≤ 0
                · rw [if_pos hle]
                  exact hU
                · rw [if_neg hle]
                  exact bal_setFlow _ uid _ (balNonneg_users_eq _ _ rfl hU)

theorem bal_on_photo (db : DB) (uid : Nat) :
    BalNonneg db → BalNonneg (on_photo db uid) := by
  intro hb
  have hU := bal_upsert db uid hb
  unfold on_photo
  try dsimp only
  cases hfu : findUser (upsert_user db uid) uid with
  | none => exact hU
  | some user =>
    try dsimp only
    by_cases hban : user.banned
    · rw [if_pos hban]
      exact hU
    · rw [if_neg hban]
      cases hfl : user.flow with
      | none => exact hU
      | some fl =>
        try dsimp only
        cases fl with
        | awaitAmount method => exact hU
        | awaitProof payId =>
          try dsimp only
          exact bal_setFlow _ uid none (balNonneg_users_eq _ _ rfl hU)

theorem bal_oxapay_webhook (db : DB) (ev : OxaEvent) (hinv : Inv db) :
    BalNonneg db → BalNonneg (oxapay_webhook db ev).1 := by
  intro hb
  unfold oxapay_webhook
  cases ev.track_id with
  | none => exact hb
  | some track =>
    try dsimp only
    cases ev.amount with
    | none => exact hb
    | some q =>
      try dsimp only
      by_cases hst : !(["paid", "confirming", "completed"].contains ev.status)
      · rw [if_pos hst]
        exact hb
      · rw [if_neg hst]
        cases hfp : findPaymentByTrack db track with
        | none => exact hb
        | some payment =>
          try dsimp only
          by_cases hm : payment.method != "oxapay"
          · rw [if_pos hm]
            exact hb
          · rw [if_neg hm]
            by_cases hap : payment.status == "approved"
            · rw [if_pos hap]
              exact hb
            · rw [if_neg hap]
              try dsimp only
              have hmem : payment ∈ db.payments := List.mem_of_find?_eq_some hfp
              have hnn : (0:ℚ) ≤ payment.amount_usd.getD 0 := hinv.1 payment hmem
              have hcast : (0:ℚ) ≤ ((truncToInt (payment.amount_usd.getD 0 * USD_TO_INR_RATE)) : ℚ) := by
                have := truncToInt_nonneg (payment.amount_usd.getD 0 * USD_TO_INR_RATE)
                  (by have h90 : (0:ℚ) ≤ USD_TO_INR_RATE := by norm_num [USD_TO_INR_RATE]
                      exact mul_nonneg hnn h90)
                exact_mod_cast this
              have hb1 : BalNonneg (withPayments db
                  (updateFirst (fun p => p.oxapay_track_id == some track && p.status != "approved")
                    (fun p => { p with status := "approved", auto := true }) db.payments)) :=
                balNonneg_users_eq db _ rfl hb
              by_cases hmod : (db.payments.find?
                  (fun p => p.oxapay_track_id == some track && p.status != "approved")).isSome
              · rw [if_pos hmod]
                exact bal_incBalance _ payment.user_id _ hcast hb1
              · rw [if_neg hmod]
                exact hb1

theorem bal_handle_payment_captured (db : DB) (ev : RzpEvent) :
    BalNonneg db → BalNonneg (handle_payment_captured db ev) := by
  intro hb
  unfold handle_payment_captured
  try dsimp only
  cases ev.payment.notes_user with
  | none => exact hb
  | some user_id =>
    try dsimp only
    cases hdup : db.payments.find? (fun p => p.razorpay_payment_id == ev.payment.id) with
    | some d => exact hb
    | none =>
      try dsimp only
      refine balNonneg_users_eq _ _ rfl ?_
      refine bal_incBalance _ user_id _ ?_ (balNonneg_users_eq db _ rfl hb)
      positivity

theorem bal_razorpay_webhook (hmacF : String → String → String) (secret : Option String)
    (db : DB) (raw sig : String) (ev : RzpEvent) :
    BalNonneg db → BalNonneg (razorpay_webhook hmacF secret db raw sig ev).1 := by
  intro hb
  unfold razorpay_webhook
  by_cases hv : !(verify_webhook_signature hmacF secret raw sig)
  · rw [if_pos hv]
    exact hb
  · rw [if_neg hv]
    by_cases he : ev.event == "payment.captured"
    · rw [if_pos he]
      exact bal_handle_payment_captured db ev hb
    · rw [if_neg he]
      by_cases hq : ev.event == "qr_code.credited"
      · rw [if_pos hq]
        exact bal_handle_payment_captured db ev hb
      · rw [if_neg hq]
        exact hb

theorem bal_cb_admin_pay (db : DB) (adminId payId : Nat) (approve : Bool) (hinv : Inv db) :
    BalNonneg db → BalNonneg (cb_admin_pay db adminId payId approve) := by
  intro hb
  have hU := bal_upsert db adminId hb
  have hIU : Inv (upsert_user db adminId) := inv_upsert db adminId hinv
  unfold cb_admin_pay
  try dsimp only
  by_cases ha : is_admin adminId
  · rw [if_neg (by rw [ha]; simp)]
    cases hfp : (upsert_user db adminId).payments.find? (fun p => p.pid == payId) with
    | none => exact hU
    | some p =>
      try dsimp only
      by_cases hpend : p.status != "pending"
      · rw [if_pos hpend]
        exact hU
      · rw [if_neg hpend]
        have hnn : (0:ℚ) ≤ p.amount_usd.getD 0 :=
          hIU.1 p (List.mem_of_find?_eq_some hfp)
        cases approve with
        | true =>
          rw [if_pos rfl]
          exact bal_incBalance _ p.user_id _ hnn (balNonneg_users_eq _ _ rfl hU)
        | false =>
          rw [if_neg (by simp)]
          exact balNonneg_users_eq _ _ rfl hU
  · have ha2 : is_admin adminId = false := by
      cases hq : is_admin adminId
      · rfl
      · exact absurd hq ha
    rw [if_pos (by rw [ha2]; simp)]
    exact hU

theorem bal_purchase_body (db : DB) (u : Nat) (prod : Product) (q : Nat) (t : ℚ) :
    BalNonneg db → BalNonneg (purchase_body db u prod q t).1 := by
  intro hb
  unfold purchase_body
  cases hfu : findUser db u with
  | none => exact hb
  | some user =>
    try dsimp only
    by_cases hban : user.banned
    · rw [if_pos hban]
      exact hb
    · rw [if_neg hban]
      by_cases hbal : user.balance_inr < t
      · rw [if_pos hbal]
        exact hb
      · rw [if_neg hbal]
        try dsimp only
        by_cases hlen : ((availStocks db prod.pid).take q).length < q
        · rw [if_pos hlen]
          exact hb
        · rw [if_neg hlen]
          try dsimp only
          refine balNonneg_users_eq _ _ rfl ?_
          refine balNonneg_update db _ (fun x => x.uid == u)
            (fun x => { x with balance_inr := x.balance_inr - t }) rfl ?_ hb
          intro b hbf _
          have hbe : b = user := by
            have : findUser db u = some b := hbf
            rw [hfu] at this
            exact (Option.some.inj this).symm
          show (0:ℚ) ≤ b.balance_inr - t
          rw [hbe]
          have := not_lt.mp hbal
          linarith

theorem bal_purchase_transaction (db : DB) (u : Nat) (prod : Product) (q : Nat) (t : ℚ) :
    BalNonneg db → BalNonneg (purchase_transaction db u prod q t).1 := by
  intro hb
  have hbody := bal_purchase_body db u prod q t hb
  unfold purchase_transaction
  cases hres : purchase_body db u prod q t with
  | mk db1 r =>
    rw [hres] at hbody
    cases r with
    | error e => exact hb
    | ok v => exact hbody

theorem bal_cb_confirm (db : DB) (uid prodId : Nat) :
    BalNonneg db → BalNonneg (cb_confirm db uid prodId).1 := by
  intro hb
  have hU := bal_upsert db uid hb
  unfold cb_confirm
  try dsimp only
  cases hfu : findUser (upsert_user db uid) uid with
  | none => exact hU
  | some user =>
    try dsimp only
    by_cases hban : user.banned
    · rw [if_pos hban]
      exact hU
    · rw [if_neg hban]
      cases user.cart with
      | none => exact hU
      | some c =>
        try dsimp only
        by_cases hc : c.1 != prodId
        · rw [if_pos hc]
          exact hU
        · rw [if_neg hc]
          cases (upsert_user db uid).products.find? (fun p => p.pid == prodId && p.enabled) with
          | none => exact hU
          | some prod =>
            exact bal_purchase_transaction (upsert_user db uid) uid prod _ _ hU

theorem bal_admin_adjust (db : DB) (adminId target : Nat) (amt : Option ℚ) :
    BalNonneg db → BalNonneg (admin_adjust_balance db adminId target true amt) := by
  intro hb
  have hU := bal_upsert db adminId hb
  unfold admin_adjust_balance
  try dsimp only
  split
  · exact hU
  · cases amt with
    | none => exact hU
    | some a =>
      try dsimp only
      by_cases hle : a ≤ 0
      · rw [if_pos hle]
        exact hU
      · rw [if_neg hle]
        refine bal_setFlow _ adminId none ?_
        refine bal_incBalance _ target _ ?_ hU
        have hn : (0:ℤ) ≤ truncToInt a := truncToInt_nonneg a (by linarith [not_le.mp hle])
        show (0:ℚ) ≤ (((if true then truncToInt a else -truncToInt a) : Int) : ℚ)
        simp only [if_true]
        exact_mod_cast hn

theorem users_cb_cancel_oxapay (db : DB) (track : String) :
    (cb_cancel_oxapay db track).users = db.users := by
  unfold cb_cancel_oxapay
  cases hfp : findPaymentByTrack db track with
  | none => rfl
  | some payment =>
    try dsimp only
    split <;> rfl

theorem users_oxapay_expire_ttl (db : DB) (track : String) :
    (oxapay_expire_ttl db track).users = db.users := by
  unfold oxapay_expire_ttl
  cases hfp : findPaymentByTrack db track with
  | none => rfl
  | some payment =>
    try dsimp only
    split <;> rfl

theorem users_cb_cancel_razorpay (db : DB) (uid : Nat) (qrId : String) :
    (cb_cancel_razorpay db uid qrId).users = db.users := by
  unfold cb_cancel_razorpay
  cases h : getAssoc db.rzpState uid with
  | none => rfl
  | some q =>
    try dsimp only
    split <;> rfl

theorem users_set_discount (db : DB) (pid : Nat) (rr : List (Int × Int)) :
    (set_discount_rules db pid rr).users = db.users := by
  unfold set_discount_rules
  try dsimp only
  split <;> rfl

theorem bal_step (hmacF : String → String → String) (db : DB) (op : Op)
    (hinv : Inv db) (hnd : NoDeduct op) :
    BalNonneg db → BalNonneg (step hmacF db op) := by
  intro hb
  cases op with
  | upsert uid => exact bal_upsert db uid hb
  | payAmount uid method => exact bal_cb_pay_amount db uid method hb
  | textAmount uid amt track qrId => exact bal_on_text_amount db uid amt track qrId hb
  | photo uid => exact bal_on_photo db uid hb
  | oxaWebhook ev => exact bal_oxapay_webhook db ev hinv hb
  | rzpWebhook raw sig ev =>
    exact bal_razorpay_webhook hmacF RAZORPAY_WEBHOOK_SECRET db raw sig ev hb
  | adminPay adminId payId approve => exact bal_cb_admin_pay db adminId payId approve hinv hb
  | cancelOxa track => exact balNonneg_users_eq db _ (users_cb_cancel_oxapay db track) hb
  | oxaExpire track => exact balNonneg_users_eq db _ (users_oxapay_expire_ttl db track) hb
  | cancelRzp uid qrId =>
    exact balNonneg_users_eq db _ (users_cb_cancel_razorpay db uid qrId) hb
  | rzpExpire uid => exact balNonneg_users_eq db _ rfl hb
  | setQty uid prodId qty =>
    refine balNonneg_users_eq _ _ rfl ?_
    exact balNonneg_update (upsert_user db uid) _ (fun u => u.uid == uid)
      (fun u => { u with cart := some (prodId, max 1 qty) }) rfl
      (fun b _ h => h) (bal_upsert db uid hb)
  | confirm uid prodId => exact bal_cb_confirm db uid prodId hb
  | adminAdjust adminId target add amt =>
    have hadd : add = true := hnd
    rw [hadd]
    exact bal_admin_adjust db adminId target amt hb
  | addStock productId email password createdAt => exact balNonneg_users_eq db _ rfl hb
  | setDiscount productId rawRules =>
    exact balNonneg_users_eq db _ (users_set_discount db productId rawRules) hb
  | addProduct price_usd => exact balNonneg_users_eq db _ rfl hb

theorem bal_foldl (hmacF : String → String → String) :
    ∀ (ops : List Op) (db : DB), Inv db → (∀ op ∈ ops, NoDeduct op) →
      BalNonneg db → BalNonneg (ops.foldl (step hmacF) db) := by
  intro ops
  induction ops with
  | nil => intro db _ _ hb; exact hb
  | cons op rest ih =>
    intro db hinv hnd hb
    exact ih (step hmacF db op) (inv_step hmacF db op hinv)
      (fun o ho => hnd o (List.mem_cons_of_mem _ ho))
      (bal_step hmacF db op hinv (hnd op (List.mem_cons_self _ _)) hb)

theorem admin_adjust_pos (db : DB) (adminId target : Nat) (add : Bool) (a : ℚ)
    (hadm : is_admin adminId = true)
    (hpos : ¬(a ≤ 0)) :
    admin_adjust_balance db adminId target add (some a)
      = setFlow (incBalance (upsert_user db adminId) target
          (((if add then truncToInt a else -truncToInt a) : Int) : ℚ)) adminId none := by
  unfold admin_adjust_balance
  try dsimp only
  rw [if_neg (by rw [hadm]; simp)]
  try dsimp only
  rw [if_neg hpos]

/-- Claim C3 counterexample: the admin deduction flow applies the negated
amount unconditionally — removing 5 credits from a zero-balance wallet
leaves the balance at minus 5. -/
theorem C3_counterexample : balanceOf (run hmacW opsC3) 9 = some (-5) := by
  have hrun : run hmacW opsC3
      = admin_adjust_balance (upsert_user initDB 9) 6670166083 9 false (some 5) := rfl
  rw [hrun, admin_adjust_pos (upsert_user initDB 9) 6670166083 9 false 5 rfl (by norm_num)]
  show some ((0:ℚ) + (((-(truncToInt (5:ℚ))) : Int) : ℚ)) = some (-5)
  have h5 : truncToInt (5:ℚ) = 5 := by
    unfold truncToInt
    rw [if_neg (by norm_num)]
    norm_num
  rw [h5]
  norm_num

/-- Claim C3 (amended): every reachable balance is nonnegative as long as
no admin balance deduction occurs: the purchase debit is guarded by the
balance check and every other balance write is a nonnegative credit.  The
admin removebal flow applies its delta unconditionally and drives the
balance negative (counterexample). -/
theorem C3_balance_nonneg (hmacF : String → String → String) (ops : List Op)
    (hnd : ∀ op ∈ ops, NoDeduct op) : BalNonneg (run hmacF ops) := by
  refine bal_foldl hmacF ops initDB inv_init hnd ?_
  intro u hu
  simp [initDB] at hu

theorem C3_balance_nonneg_witness :
    (∀ op ∈ opsC10, NoDeduct op) ∧ BalNonneg (run hmacW opsC10) := by
  have hnd : ∀ op ∈ opsC10, NoDeduct op := by
    intro op hop
    rcases List.mem_cons.mp hop with rfl | h1
    · exact trivial
    · rcases List.mem_cons.mp h1 with rfl | h2
      · exact trivial
      · simp at h2
  exact ⟨hnd, C3_balance_nonneg hmacW opsC10 hnd⟩

/-! ### Claim C8: the expiry scheduler against a concurrent settlement -/

/-- Claim C8 counterexample: the expiry task reads the payment as pending,
the settlement delivery then approves and credits it, and the expiry
task's TTL write — whose filter carries no status condition — overwrites
the approved payment to expired while the wallet keeps the credit. -/
theorem C8_counterexample :
    statusByTrack (mixRun { db := dbRace, w := oxaT0, e := expT0 } [false, true, true, true, false]).db "T" = some "expired"
    ∧ balanceOf (mixRun { db := dbRace, w := oxaT0, e := expT0 } [false, true, true, true, false]).db 1 = some 90 := by
  constructor
  · rfl
  · show some ((0:ℚ) + ((truncToInt ((1:ℚ) * USD_TO_INR_RATE)) : ℚ)) = some 90
    have h1 : truncToInt ((1:ℚ) * USD_TO_INR_RATE) = 90 := by
      unfold truncToInt USD_TO_INR_RATE
      rw [if_neg (by norm_num)]
      norm_num
    rw [h1]
    norm_num

/-- Claim C8 (amended): run on its own, the TTL step is guarded by the
status it reads: a payment read in any non-pending status — approved in
particular — is left untouched, and a payment read as pending is
rewritten to expired.  The guard is a separate read, not part of the
update filter, so interleaved with a settlement delivery the read is
stale and an approved payment is overwritten (counterexample). -/
theorem C8_ttl_guard :
    (∀ (db : DB) (track : String) (p : Payment),
      findPaymentByTrack db track = some p → p.status ≠ "pending" →
      oxapay_expire_ttl db track = db)
    ∧ (∀ (db : DB) (track : String) (p : Payment),
      findPaymentByTrack db track = some p → p.status = "pending" →
      (oxapay_expire_ttl db track).payments
        = updateFirst (fun x => x.oxapay_track_id == some track)
            (fun x => { x with status := "expired" }) db.payments) := by
  constructor
  · intro db track p hfp hnp
    unfold oxapay_expire_ttl
    rw [hfp]
    try dsimp only
    rw [if_neg (by simp [hnp])]
  · intro db track p hfp hp
    unfold oxapay_expire_ttl
    rw [hfp]
    try dsimp only
    rw [if_pos (by simp [hp])]
    rfl

theorem C8_ttl_guard_witness :
    oxapay_expire_ttl dbC8 "T" = dbC8
    ∧ (oxapay_expire_ttl dbRace "T").payments
        = updateFirst (fun x => x.oxapay_track_id == some "T")
            (fun x => { x with status := "expired" }) dbRace.payments := by
  constructor
  · exact C8_ttl_guard.1 dbC8 "T"
      { pid := 0, user_id := 1, method := "oxapay", amount_usd := some 1, amount_inr := none, status := "approved", oxapay_track_id := some "T", razorpay_payment_id := none, auto := true }
      rfl (by simp)
  · exact C8_ttl_guard.2 dbRace "T"
      { pid := 0, user_id := 1, method := "oxapay", amount_usd := some 1, amount_inr := none, status := "pending", oxapay_track_id := some "T", razorpay_payment_id := none, auto := false }
      rfl rfl

/-! ### Claim C9: exactly-once crediting under concurrent delivery -/

theorem countP_le_countP {α : Type} (p q : α → Bool) :
    ∀ l : List α, (∀ a ∈ l, p a = true → q a = true) → l.countP p ≤ l.countP q := by
  intro l
  induction l with
  | nil => intro _; simp
  | cons c t ih =>
    intro h
    rw [List.countP_cons, List.countP_cons]
    have ht := ih (fun a ha => h a (List.mem_cons_of_mem _ ha))
    by_cases hpc : p c = true
    · rw [h c (List.mem_cons_self _ _) hpc, hpc]
      omega
    · have hpc2 : p c = false := by
        cases hq : p c
        · rfl
        · exact absurd hq hpc
      rw [hpc2]
      simp only [Bool.false_eq_true, if_false]
      omega

theorem countP_updateFirst_found {α : Type} (pr : α → Bool) (f : α → α)
    (hfb : ∀ x, pr (f x) = false) :
    ∀ (l : List α) (b : α), l.find? pr = some b →
      (updateFirst pr f l).countP pr + 1 = l.countP pr := by
  intro l
  induction l with
  | nil => intro b h; simp [List.find?] at h
  | cons c tl ih =>
    intro b h
    by_cases hpc : pr c
    · simp only [updateFirst, if_pos hpc]
      rw [List.countP_cons, List.countP_cons, hfb c, if_pos hpc]
      simp
    · have h2 : tl.find? pr = some b := by
        rw [List.find?_cons_of_neg _ hpc] at h
        exact h
      have hpc2 : pr c = false := by
        cases hq : pr c
        · rfl
        · exact absurd hq hpc
      simp only [updateFirst, if_neg hpc]
      rw [List.countP_cons, List.countP_cons, hpc2]
      have := ih b h2
      simp only [Bool.false_eq_true, if_false]
      omega

theorem condT_track (t : String) (p : Payment) (h : condT t p = true) :
    (p.oxapay_track_id == some t) = true := by
  unfold condT at h
  cases hA : (p.oxapay_track_id == some t)
  · rw [hA] at h
    simp at h
  · rfl

theorem oxaTaskStep_tok (db : DB) (tk : OxaTask) (t : String)
    (htr : tk.ev.track_id = some t) :
    (oxaTaskStep db tk).2.ev = tk.ev
    ∧ (oxaTaskStep db tk).1.payments.countP (condT t) + taskTok (oxaTaskStep db tk).2
        ≤ db.payments.countP (condT t) + taskTok tk := by
  unfold oxaTaskStep
  cases hpc : tk.pc with
  | start =>
    rw [htr]
    try dsimp only
    cases tk.ev.amount with
    | none =>
      refine ⟨rfl, ?_⟩
      simp [taskTok, hpc]
    | some q =>
      try dsimp only
      by_cases hst : !(["paid", "confirming", "completed"].contains tk.ev.status)
      · rw [if_pos hst]
        refine ⟨rfl, ?_⟩
        simp [taskTok, hpc]
      · rw [if_neg hst]
        cases hfp : findPaymentByTrack db t with
        | none =>
          refine ⟨rfl, ?_⟩
          simp [taskTok, hpc]
        | some payment =>
          try dsimp only
          by_cases hm : payment.method != "oxapay"
          · rw [if_pos hm]
            refine ⟨rfl, ?_⟩
            simp [taskTok, hpc]
          · rw [if_neg hm]
            by_cases hap : payment.status == "approved"
            · rw [if_pos hap]
              refine ⟨rfl, ?_⟩
              simp [taskTok, hpc]
            · rw [if_neg hap]
              refine ⟨rfl, ?_⟩
              simp [taskTok, hpc]
  | validated =>
    rw [htr]
    try dsimp only
    cases hfind : db.payments.find? (fun p => p.oxapay_track_id == some t && p.status != "approved") with
    | some b =>
      try dsimp only
      refine ⟨rfl, ?_⟩
      have hcount : (updateFirst (fun p => p.oxapay_track_id == some t && p.status != "approved")
            (fun p => { p with status := "approved", auto := true }) db.payments).countP
              (fun p => p.oxapay_track_id == some t && p.status != "approved") + 1
          = db.payments.countP (fun p => p.oxapay_track_id == some t && p.status != "approved") :=
        countP_updateFirst_found _ _ (by intro x; simp) db.payments b hfind
      show (updateFirst (fun p => p.oxapay_track_id == some t && p.status != "approved")
            (fun p => { p with status := "approved", auto := true }) db.payments).countP (condT t)
          + taskTok { tk with pc := OxaPC.updated, modified := true }
        ≤ db.payments.countP (condT t) + taskTok tk
      have hc1 : (updateFirst (fun p => p.oxapay_track_id == some t && p.status != "approved")
            (fun p => { p with status := "approved", auto := true }) db.payments).countP (condT t)
          = (updateFirst (fun p => p.oxapay_track_id == some t && p.status != "approved")
            (fun p => { p with status := "approved", auto := true }) db.payments).countP
              (fun p => p.oxapay_track_id == some t && p.status != "approved") := rfl
      have hc2 : db.payments.countP (condT t)
          = db.payments.countP (fun p => p.oxapay_track_id == some t && p.status != "approved") := rfl
      rw [hc1, hc2]
      simp only [taskTok, hpc]
      simp
      omega
    | none =>
      try dsimp only
      refine ⟨rfl, ?_⟩
      rw [updateFirst_of_find?_eq_none _ _ db.payments hfind]
      show db.payments.countP (condT t)
          + taskTok { tk with pc := OxaPC.updated, modified := false }
        ≤ db.payments.countP (condT t) + taskTok tk
      simp only [taskTok, hpc]
      simp
  | updated =>
    try dsimp only
    by_cases hm : tk.modified
    · rw [if_pos hm]
      cases hp : tk.payment with
      | some pm =>
        try dsimp only
        refine ⟨rfl, ?_⟩
        show (incBalance db pm.user_id
            ((truncToInt (pm.amount_usd.getD 0 * USD_TO_INR_RATE)) : ℚ)).payments.countP (condT t)
            + taskTok { tk with pc := OxaPC.done, credited := true }
          ≤ db.payments.countP (condT t) + taskTok tk
        rw [payments_incBalance]
        simp only [taskTok, hpc, hm]
        simp
      | none =>
        refine ⟨rfl, ?_⟩
        simp [taskTok, hpc]
    · rw [if_neg hm]
      refine ⟨rfl, ?_⟩
      simp [taskTok, hpc]
  | done =>
    exact ⟨rfl, le_refl _⟩

theorem oxaPairRun_tok (t : String) :
    ∀ (sched : List Bool) (c : OxaCfg),
      c.a.ev.track_id = some t → c.b.ev.track_id = some t →
      cfgTok t (oxaPairRun c sched) ≤ cfgTok t c := by
  intro sched
  induction sched with
  | nil => intro c _ _; exact le_refl _
  | cons pick rest ih =>
    intro c ha hb
    have hstep : cfgTok t (oxaPairStep c pick) ≤ cfgTok t c
        ∧ (oxaPairStep c pick).a.ev.track_id = some t
        ∧ (oxaPairStep c pick).b.ev.track_id = some t := by
      cases pick with
      | true =>
        have h := oxaTaskStep_tok c.db c.a t ha
        refine ⟨?_, ?_, ?_⟩
        · show (oxaTaskStep c.db c.a).1.payments.countP (condT t)
              + taskTok (oxaTaskStep c.db c.a).2 + taskTok c.b
            ≤ c.db.payments.countP (condT t) + taskTok c.a + taskTok c.b
          omega
        · show (oxaTaskStep c.db c.a).2.ev.track_id = some t
          rw [h.1]
          exact ha
        · exact hb
      | false =>
        have h := oxaTaskStep_tok c.db c.b t hb
        refine ⟨?_, ?_, ?_⟩
        · show (oxaTaskStep c.db c.b).1.payments.countP (condT t)
              + taskTok c.a + taskTok (oxaTaskStep c.db c.b).2
            ≤ c.db.payments.countP (condT t) + taskTok c.a + taskTok c.b
          omega
        · exact ha
        · show (oxaTaskStep c.db c.b).2.ev.track_id = some t
          rw [h.1]
          exact hb
    exact le_trans (ih (oxaPairStep c pick) hstep.2.1 hstep.2.2) hstep.1

/-- Claim C9 counterexample: two concurrent Razorpay deliveries of the
same payment.captured event both pass the find-then-insert duplicate
check before either inserts, so both insert an approved document and
both credit the wallet — the dedup read and the insert are separate
store calls, not an atomic conditional update. -/
theorem C9_counterexample :
    ((rzpPairRun { db := dbRzpRace, a := rzpT0, b := rzpT0 } [true, false, true, false, true, false]).db.payments.countP
      (fun p => p.razorpay_payment_id == some "PAY9")) = 2
    ∧ balanceOf (rzpPairRun { db := dbRzpRace, a := rzpT0, b := rzpT0 } [true, false, true, false, true, false]).db 1 = some 100 := by
  constructor
  · rfl
  · show some (((0:ℚ) + ((5000 / 100 : Nat) : ℚ)) + ((5000 / 100 : Nat) : ℚ)) = some 100
    norm_num

/-- Claim C9 (amended): for OxaPay the claim holds — crediting is gated
on winning the atomic conditional status update, and with at most one
stored document per track, two concurrent deliveries of the same
settlement event never both credit under any interleaving.  For Razorpay
it fails: the duplicate check is a separate read before the insert, and
an interleaving credits twice (counterexample). -/
theorem C9_oxa_exactly_once (db : DB) (t : String) (ev : OxaEvent) (sched : List Bool)
    (htr : ev.track_id = some t) (huniq : uniqueTrack db t) :
    ¬((oxaPairRun { db := db, a := oxaFresh ev, b := oxaFresh ev } sched).a.credited = true
      ∧ (oxaPairRun { db := db, a := oxaFresh ev, b := oxaFresh ev } sched).b.credited = true) := by
  intro ⟨hca, hcb⟩
  have hrun := oxaPairRun_tok t sched { db := db, a := oxaFresh ev, b := oxaFresh ev } htr htr
  have hinit : cfgTok t { db := db, a := oxaFresh ev, b := oxaFresh ev }
      = db.payments.countP (condT t) := by
    show db.payments.countP (condT t) + taskTok (oxaFresh ev) + taskTok (oxaFresh ev)
        = db.payments.countP (condT t)
    simp [taskTok, oxaFresh]
  have hle1 : db.payments.countP (condT t) ≤ 1 := by
    refine le_trans ?_ huniq
    exact countP_le_countP (condT t) (fun p => p.oxapay_track_id == some t) db.payments
      (fun p _ hp => condT_track t p hp)
  have h2 : 2 ≤ cfgTok t (oxaPairRun { db := db, a := oxaFresh ev, b := oxaFresh ev } sched) := by
    show 2 ≤ (oxaPairRun { db := db, a := oxaFresh ev, b := oxaFresh ev } sched).db.payments.countP (condT t)
        + taskTok (oxaPairRun { db := db, a := oxaFresh ev, b := oxaFresh ev } sched).a
        + taskTok (oxaPairRun { db := db, a := oxaFresh ev, b := oxaFresh ev } sched).b
    simp only [taskTok, hca, hcb]
    simp
    omega
  omega

theorem C9_oxa_exactly_once_witness :
    evRace.track_id = some "T" ∧ uniqueTrack dbRace "T"
    ∧ ¬((oxaPairRun { db := dbRace, a := oxaFresh evRace, b := oxaFresh evRace } [true, true, true, false, false, false]).a.credited = true
        ∧ (oxaPairRun { db := dbRace, a := oxaFresh evRace, b := oxaFresh evRace } [true, true, true, false, false, false]).b.credited = true) := by
  have hu : uniqueTrack dbRace "T" := by
    show dbRace.payments.countP (fun p => p.oxapay_track_id == some "T") ≤ 1
    decide
  exact ⟨rfl, hu,
    C9_oxa_exactly_once dbRace "T" evRace [true, true, true, false, false, false] rfl hu⟩

end OttBot
